import Mathlib

/-!
# Verification of the netfilter hook device (`hook.c`)

A shallow embedding of the packet interception callback (`nf_cb`), the filter
matcher (`pass`), filter installation (`setup_filter`, `nh_ioctl`), and the
subscriber I/O paths (`nh_read`, `nh_write`).

## Memory model

* A C pointer to a heap object is a `Ptr`: `null`, `live v` (valid, pointee `v`)
  or `freed` (non-NULL but the pointee was released with `kfree`).  A NULL test
  only distinguishes `null` from the other two; `kfree` does not change the
  pointer variable itself, so `kfree (p->filter)` turns `live v` into `freed`.
* A `struct net_device *` is `Option Nat` (`none` is NULL).
* A `struct sk_buff *` is identified by the address `sk_buff.id`.
* The registry `nh_privs` is the kernel's circular doubly linked list, kept as
  the pointers themselves: the list head and every `p->list` hold a `next` and a
  `prev` pointer (`list_ptr`), and `list_add`, `list_del` and the traversal of
  `pass` do the pointer reads and writes of linux/list.h.  A state may thus
  hold a list that no longer returns to its head; the traversal takes fuel, and
  `Outcome.out_of_fuel` says that it has not ended within the given fuel.
* The tracker `current_skbs` is a Lean list, head first: each entry is a fresh
  allocation that is linked once, at the front, and unlinked once.
* Code that dereferences a NULL, poisoned or freed pointer or frees an object
  twice has no defined behaviour; such runs end in `Outcome.fault`.
* Results of calls into the rest of the kernel (allocators, user copies, device
  lookup, hook registration, pending signals) are inputs, gathered in `Kernel`.
-/

namespace NetHook

/-! ## Constants -/

/-- Kernel verdict `NF_ACCEPT` (linux/netfilter.h). -/
def NF_ACCEPT : Nat := 1
/-- Kernel verdict `NF_STOLEN` (linux/netfilter.h). -/
def NF_STOLEN : Nat := 2
/-- Number of IPv4 hook points (linux/netfilter_ipv4.h). -/
def NF_IP_NUMHOOKS : Int := 5
/-- Errno values (asm-generic/errno-base.h, linux/errno.h). -/
def EBADF : Int := 9
def ENOMEM : Int := 12
def EFAULT : Int := 14
def EINVAL : Int := 22
def ERESTARTSYS : Int := 512
/-- Length of an Ethernet header (linux/if_ether.h). -/
def ETH_HLEN : Nat := 14

def CHECK_PROTO : Nat := 1 <<< 0
def CHECK_OUT : Nat := 1 <<< 1
def CHECK_IN : Nat := 1 <<< 2
def CHECK_SADDR : Nat := 1 <<< 3
def CHECK_DADDR : Nat := 1 <<< 4
def CHECK_SPORT : Nat := 1 <<< 5
def CHECK_DPORT : Nat := 1 <<< 6

/-! ## Data model -/

/-- A C heap pointer: NULL, valid, or dangling after `kfree`. -/
inductive Ptr (α : Type) where
  | null : Ptr α
  | live (v : α) : Ptr α
  | freed : Ptr α
deriving DecidableEq

/-- Result of running a piece of kernel code: `fault` stands for a run that
performs an invalid memory access, `out_of_fuel` for a run whose list
traversal has not ended within the fuel it was given. -/
inductive Outcome (α : Type) where
  | fault : Outcome α
  | out_of_fuel : Outcome α
  | ok (v : α) : Outcome α
deriving DecidableEq

/-- A `struct list_head *` of the registry: NULL (a `list_head` that `kzalloc`
zeroed), one of the two poison values `list_del` leaves behind, the address of
the list head `nh_privs`, or the address of `p->list` for the open file `p`. -/
inductive list_ptr where
  | null : list_ptr
  | poison1 : list_ptr
  | poison2 : list_ptr
  | head : list_ptr
  | node (p : Nat) : list_ptr
deriving DecidableEq

/-- The two pointers of a `struct list_head`. -/
structure list_head where
  next : list_ptr
  prev : list_ptr
deriving DecidableEq

/-- Modelled from the spec: `struct nh_filter` of hook.h is not among the
sources; the fields are the ones hook.c reads and writes, with the C types
listed in the `nh_ioctl` debug print.  `flags` is the bit pattern of the C
`int`; `in_` and `out` are the resolved `struct net_device *` (`in`, `out`). -/
structure nh_filter where
  proto : Nat
  saddr : Nat
  daddr : Nat
  dport : Nat
  sport : Nat
  in_dev : String
  out_dev : String
  priority : Int
  hooknum : Int
  flags : Nat
  in_ : Option Nat
  out : Option Nat
deriving DecidableEq

/-- Modelled from the spec: the writer modes of hook.h, which is not among the
sources; `other` stands for any value that is none of the three named modes. -/
inductive nh_mode where
  | TO_ROUTING_STACK
  | TO_INTERFACE
  | TO_INTERFACE_QUEUE
  | other
deriving DecidableEq

/-- Modelled from the spec: `struct nh_writer` of hook.h, which is not among
the sources; the fields are the ones hook.c uses. -/
structure nh_writer where
  dest_dev_str : String
  dest_dev : Option Nat
  mode : nh_mode
deriving DecidableEq

/-- The part of `struct iphdr` that `pass` reads. -/
structure iphdr where
  protocol : Nat
  saddr : Nat
  daddr : Nat
deriving DecidableEq

/-- The part of `struct tcphdr` that `pass` reads, as stored in the header. -/
structure tcphdr where
  source : Nat
  dest : Nat
deriving DecidableEq

/-- A packet buffer: `id` is its address, `iph` and `tph` are what
`skb_network_header` and `skb_transport_header` point to (`none` is NULL),
`len` is `skb->len`. -/
structure sk_buff where
  id : Nat
  iph : Option iphdr
  tph : Option tcphdr
  len : Nat
deriving DecidableEq

/-- The fields of `struct nf_hook_ops` that `setup_filter` fills in. -/
structure nf_hook_ops where
  hooknum : Int
  priority : Int
deriving DecidableEq

/-- The per-open-file `struct nh_private` (the wait queue is not modelled). -/
structure nh_private where
  list : list_head
  filter : Ptr nh_filter
  writer : Ptr nh_writer
  skb_queue : List sk_buff
deriving DecidableEq

/-- The module state: the loop-prevention list `current_skbs` (packet
addresses), the list head `nh_privs` of the registry, the private data of every
open file (by file number), and the hook-activation table `cb_in_use`. -/
structure State where
  current_skbs : List Nat
  nh_privs : list_head
  privs : Nat → nh_private
  cb_in_use : Nat → Option nf_hook_ops

/-- What the rest of the kernel answers during one call. -/
structure Kernel where
  dev_get_by_name : String → Option Nat
  kzalloc_filter : Bool
  kzalloc_hook : Bool
  kzalloc_writer : Bool
  kmalloc_entry : Bool
  copy_from_user : Bool
  copy_to_user : Bool
  nf_register_hook : Int
  dev_alloc_skb : Option Nat
  signal_pending : Bool

/-- Modelled from the spec: the ioctl requests of hook.h, which is not among
the sources; the argument is the user memory the request points to. -/
inductive nh_req where
  | NH_SET_FILTER (arg : nh_filter)
  | NH_RM_FILTER
  | NH_SET_WRITE_MODE (arg : nh_writer)
  | unknown

/-- What a `read` call does: sleep in `wait_event_interruptible`, or return `v`
after copying `copied` bytes to the caller. -/
inductive ReadResult where
  | blocked
  | ret (v : Int) (copied : Nat)
deriving DecidableEq

/-! ## State helpers -/

/-- Overwrite the private data of one open file. -/
def set_priv (s : State) (file : Nat) (p : nh_private) : State :=
  { s with privs := fun i => if i = file then p else s.privs i }

/-- Store a registered hook in `cb_in_use [idx]`. -/
def set_cb (s : State) (idx : Nat) (h : nf_hook_ops) : State :=
  { s with cb_in_use := fun i => if i = idx then some h else s.cb_in_use i }

/-- The private data `nh_open` creates with `kzalloc`: zeroed list pointers, no
filter, no writer, empty queue. -/
def nh_open_priv : nh_private :=
  { list := { next := list_ptr.null, prev := list_ptr.null }, filter := Ptr.null,
    writer := Ptr.null, skb_queue := [] }

/-- The state right after module load, every file freshly opened: both lists
empty (`LIST_HEAD` makes the head point to itself) and no hook active. -/
def init : State :=
  { current_skbs := [], nh_privs := { next := list_ptr.head, prev := list_ptr.head },
    privs := fun _ => nh_open_priv, cb_in_use := fun _ => none }

/-! ## The kernel list operations on the registry (linux/list.h) -/

/-- The write `r->next = v`. -/
def set_next (s : State) (r v : list_ptr) : Outcome State :=
  match r with
  | list_ptr.head => Outcome.ok { s with nh_privs := { s.nh_privs with next := v } }
  | list_ptr.node p =>
    Outcome.ok (set_priv s p { s.privs p with list := { (s.privs p).list with next := v } })
  | _ => Outcome.fault

/-- The write `r->prev = v`. -/
def set_prev (s : State) (r v : list_ptr) : Outcome State :=
  match r with
  | list_ptr.head => Outcome.ok { s with nh_privs := { s.nh_privs with prev := v } }
  | list_ptr.node p =>
    Outcome.ok (set_priv s p { s.privs p with list := { (s.privs p).list with prev := v } })
  | _ => Outcome.fault

/-- The call `list_add (&new->list, &nh_privs)`: with `next = nh_privs.next`,
the writes `next->prev = new; new->next = next; new->prev = head;
head->next = new`, in this order. -/
def list_add (s : State) (new : Nat) : Outcome State :=
  let next := s.nh_privs.next
  match set_prev s next (list_ptr.node new) with
  | Outcome.ok s1 =>
    let s2 := set_priv s1 new
      { s1.privs new with list := { next := next, prev := list_ptr.head } }
    set_next s2 list_ptr.head (list_ptr.node new)
  | _ => Outcome.fault

/-- The call `list_del (&entry->list)`: with `prev = entry->prev` and
`next = entry->next`, the writes `next->prev = prev; prev->next = next`, then the
two pointers of the entry are poisoned. -/
def list_del (s : State) (entry : Nat) : Outcome State :=
  let prev := (s.privs entry).list.prev
  let next := (s.privs entry).list.next
  match set_prev s next prev with
  | Outcome.ok s1 =>
    match set_next s1 prev next with
    | Outcome.ok s2 =>
      Outcome.ok (set_priv s2 entry { s2.privs entry with
        list := { next := list_ptr.poison1, prev := list_ptr.poison2 } })
    | _ => Outcome.fault
  | _ => Outcome.fault

/-- Conversion of the `unsigned int hooknum` of `nf_cb` to the `int hooknum`
parameter of `pass`. -/
def int_of_unsigned (n : Nat) : Int :=
  if n % 2 ^ 32 < 2 ^ 31 then ((n % 2 ^ 32 : Nat) : Int)
  else ((n % 2 ^ 32 : Nat) : Int) - 2 ^ 32

/-! ## Loop-prevention lookup -/

/-- The position of the first entry of `current_skbs` that holds `skb`. -/
def is_hooked (current_skbs : List Nat) (skb : Nat) : Option Nat :=
  match current_skbs with
  | [] => none
  | e :: rest =>
    if e = skb then some 0
    else match is_hooked rest skb with
      | some i => some (i + 1)
      | none => none

/-! ## Filter matching -/

/-- The network-header checks of the loop body of `pass`. -/
def ip_checks (f : nh_filter) (iph : iphdr) : Bool :=
  if (f.flags &&& CHECK_PROTO != 0) && (f.proto != iph.protocol) then false
  else if (f.flags &&& CHECK_SADDR != 0) && (f.saddr != iph.saddr) then false
  else if (f.flags &&& CHECK_DADDR != 0) && (f.daddr != iph.daddr) then false
  else true

/-- The transport-header checks of the loop body of `pass`. -/
def tcp_checks (f : nh_filter) (tph : tcphdr) : Bool :=
  if (f.flags &&& CHECK_SPORT != 0) && (f.sport != tph.source) then false
  else if (f.flags &&& CHECK_DPORT != 0) && (f.dport != tph.dest) then false
  else true

/-- One iteration of the loop of `pass`: `true` when control reaches
`return e`, `false` when one of the `continue` statements is taken. -/
def filter_match (f : nh_filter) (skb : sk_buff) (in_ out : Option Nat)
    (hooknum : Int) : Bool :=
  if f.hooknum != hooknum then false
  else if (f.flags &&& CHECK_OUT != 0) && (f.out != out) then false
  else if (f.flags &&& CHECK_IN != 0) && (f.in_ != in_) then false
  else if (match skb.iph with
      | some iph => !(ip_checks f iph)
      | none => false) then false
  else if (match skb.tph with
      | some tph => !(tcp_checks f tph)
      | none => false) then false
  else true

/-- The loop `list_for_each_entry (e, &nh_privs, list)` of `pass`, started at
the list pointer `pos` and allowed `fuel` tests of the loop condition. -/
def pass_loop (s : State) (skb : sk_buff) (in_ out : Option Nat) (hooknum : Int) :
    Nat → list_ptr → Outcome (Option Nat)
  | 0, _ => Outcome.out_of_fuel
  | _ + 1, list_ptr.head => Outcome.ok none
  | fuel + 1, list_ptr.node e =>
    match (s.privs e).filter with
    | Ptr.live f =>
      if filter_match f skb in_ out hooknum then Outcome.ok (some e)
      else pass_loop s skb in_ out hooknum fuel (s.privs e).list.next
    | _ => Outcome.fault
  | _ + 1, _ => Outcome.fault

/-- The subscriber `pass` returns, `none` for NULL. -/
def pass (fuel : Nat) (s : State) (skb : sk_buff) (in_ out : Option Nat) (hooknum : Int) :
    Outcome (Option Nat) :=
  pass_loop s skb in_ out hooknum fuel s.nh_privs.next

/-! ## Interception callback -/

/-- Append a packet to the queue of subscriber `p` (`skb_queue_tail`). -/
def skb_queue_tail (s : State) (p : Nat) (skb : sk_buff) : State :=
  set_priv s p { s.privs p with skb_queue := (s.privs p).skb_queue ++ [skb] }

/-- The netfilter callback; the result is the verdict and the new state.  The
fuel is what the traversal of `pass` may use. -/
def nf_cb (fuel : Nat) (s : State) (hooknum : Nat) (skb : sk_buff) (in_ out : Option Nat) :
    Outcome (Nat × State) :=
  match is_hooked s.current_skbs skb.id with
  | some i =>
    Outcome.ok (NF_ACCEPT, { s with current_skbs := s.current_skbs.eraseIdx i })
  | none =>
    match pass fuel s skb in_ out (int_of_unsigned hooknum) with
    | Outcome.fault => Outcome.fault
    | Outcome.out_of_fuel => Outcome.out_of_fuel
    | Outcome.ok (some p) => Outcome.ok (NF_STOLEN, skb_queue_tail s p skb)
    | Outcome.ok none => Outcome.ok (NF_ACCEPT, s)

/-! ## Filter installation and removal -/

/-- The flag updates of `setup_filter`, in source order. -/
def setup_flags (k : Kernel) (f : nh_filter) : nh_filter :=
  let f := { f with in_ := k.dev_get_by_name f.in_dev }
  let f := if f.in_.isSome then { f with flags := f.flags ||| CHECK_IN } else f
  let f := { f with out := k.dev_get_by_name f.out_dev }
  let f := if f.out.isSome then { f with flags := f.flags ||| CHECK_OUT } else f
  let f := if f.saddr != 0 then { f with flags := f.flags ||| CHECK_SADDR } else f
  let f := if f.daddr != 0 then { f with flags := f.flags ||| CHECK_DADDR } else f
  let f := if f.dport != 0 then { f with flags := f.flags ||| CHECK_DPORT } else f
  let f := if f.sport != 0 then { f with flags := f.flags ||| CHECK_SPORT } else f
  if f.proto != 0 then { f with flags := f.flags ||| CHECK_PROTO } else f

/-- The function `setup_filter`, run on the filter `p->filter` of `file`.  When
`nf_register_hook` fails the code releases `nf_hook` twice, which is a fault. -/
def setup_filter (k : Kernel) (s : State) (file : Nat) : Outcome (Int × State) :=
  match (s.privs file).filter with
  | Ptr.live f =>
    if f.hooknum < 0 ∨ f.hooknum > NF_IP_NUMHOOKS - 1 then Outcome.ok (-EINVAL, s)
    else if k.kzalloc_hook = false then Outcome.ok (-ENOMEM, s)
    else
      let f1 := setup_flags k f
      let s1 := set_priv s file { s.privs file with filter := Ptr.live f1 }
      match s1.cb_in_use f1.hooknum.toNat with
      | none =>
        if k.nf_register_hook < 0 then Outcome.fault
        else
          Outcome.ok (0, set_cb s1 f1.hooknum.toNat (nf_hook_ops.mk f1.hooknum f1.priority))
      | some _ => Outcome.ok (0, s1)
  | _ => Outcome.fault

/-- The device control call `nh_ioctl` on the open file `file`.  `NH_RM_FILTER`
with a released filter runs `list_del` and then frees the filter a second
time, which is a fault whatever `list_del` did. -/
def nh_ioctl (k : Kernel) (s : State) (file : Nat) (req : nh_req) :
    Outcome (Int × State) :=
  match req with
  | nh_req.NH_SET_FILTER arg =>
    if k.kzalloc_filter = false then Outcome.ok (-ENOMEM, s)
    else if k.copy_from_user = false then Outcome.ok (-EFAULT, s)
    else
      let s1 := set_priv s file { s.privs file with filter := Ptr.live arg }
      match setup_filter k s1 file with
      | Outcome.ok (ret, s2) =>
        if ret = 0 then
          match list_add s2 file with
          | Outcome.ok s3 => Outcome.ok (ret, s3)
          | _ => Outcome.fault
        else
          Outcome.ok (ret, set_priv s2 file { s2.privs file with filter := Ptr.freed })
      | _ => Outcome.fault
  | nh_req.NH_RM_FILTER =>
    match (s.privs file).filter with
    | Ptr.null => Outcome.ok (0, s)
    | Ptr.live _ =>
      match list_del s file with
      | Outcome.ok s1 =>
        Outcome.ok (0, set_priv s1 file { s1.privs file with filter := Ptr.freed })
      | _ => Outcome.fault
    | Ptr.freed => Outcome.fault
  | nh_req.NH_SET_WRITE_MODE arg =>
    if k.kzalloc_writer = false then Outcome.ok (-ENOMEM, s)
    else if k.copy_from_user = false then Outcome.ok (-EFAULT, s)
    else
      Outcome.ok (0, set_priv s file { s.privs file with
        writer := Ptr.live { arg with dest_dev := k.dev_get_by_name arg.dest_dev_str } })
  | nh_req.unknown => Outcome.ok (-EINVAL, s)

/-! ## Subscriber I/O -/

/-- The function `nh_read` with a user buffer of `count` bytes. -/
def nh_read (k : Kernel) (s : State) (file : Nat) (count : Nat) : ReadResult × State :=
  if count = 0 then (ReadResult.ret 0 0, s)
  else
    match (s.privs file).filter with
    | Ptr.null => (ReadResult.ret (-EBADF) 0, s)
    | _ =>
      match (s.privs file).skb_queue with
      | [] =>
        if k.signal_pending then (ReadResult.ret (-ERESTARTSYS) 0, s)
        else (ReadResult.blocked, s)
      | skb :: rest =>
        if k.signal_pending then (ReadResult.ret (-ERESTARTSYS) 0, s)
        else
          let s1 := set_priv s file { s.privs file with skb_queue := rest }
          let len := skb.len + ETH_HLEN
          if len > count then (ReadResult.ret (-EINVAL) 0, s1)
          else if k.copy_to_user = false then (ReadResult.ret (-EFAULT) 0, s1)
          else (ReadResult.ret (len : Nat) len, s1)

/-- The function `nh_write` up to the point where the packet is handed to the
network stack (`netif_rx_ni`) or to the interface.  `skb` is the address of the
packet `dev_alloc_skb` returns.  A NULL `dest_dev` is dereferenced on both
branches (by `eth_type_trans`, and in the arguments of `dev_hard_header`). -/
def nh_write (k : Kernel) (s : State) (file : Nat) (count : Nat) : Outcome (Int × State) :=
  match (s.privs file).writer with
  | Ptr.null => Outcome.ok (-EBADF, s)
  | Ptr.freed => Outcome.fault
  | Ptr.live w =>
    match k.dev_alloc_skb with
    | none => Outcome.ok (-ENOMEM, s)
    | some skb =>
      if k.copy_from_user = false then Outcome.ok (-EFAULT, s)
      else if w.mode = nh_mode.TO_ROUTING_STACK then
        if k.kmalloc_entry = false then Outcome.ok (-ENOMEM, s)
        else
          match w.dest_dev with
          | none => Outcome.fault
          | some _ =>
            Outcome.ok ((count : Int), { s with current_skbs := skb :: s.current_skbs })
      else
        match w.dest_dev with
        | none => Outcome.fault
        | some _ => Outcome.ok ((count : Int), s)

/-! ## Registry shapes -/

/-- What the read `r->next` gives (NULL when `r` is not a valid address). -/
def next_of (s : State) : list_ptr → list_ptr
  | list_ptr.head => s.nh_privs.next
  | list_ptr.node p => (s.privs p).list.next
  | _ => list_ptr.null

/-- What the read `r->prev` gives (NULL when `r` is not a valid address). -/
def prev_of (s : State) : list_ptr → list_ptr
  | list_ptr.head => s.nh_privs.prev
  | list_ptr.node p => (s.privs p).list.prev
  | _ => list_ptr.null

/-- Following `next` pointers from the pointer `a` visits exactly the
subscribers `l`, in this order, and then holds the pointer `b`. -/
def fwd (s : State) : list_ptr → List Nat → list_ptr → Prop
  | a, [], b => a = b
  | a, e :: rest, b => a = list_ptr.node e ∧ fwd s (next_of s (list_ptr.node e)) rest b

/-- The nodes `l` are doubly linked after the address `a`, the last one (or `a`
itself when `l` is empty) being linked back to the list head. -/
def linked (s : State) : list_ptr → List Nat → Prop
  | a, [] => next_of s a = list_ptr.head ∧ prev_of s list_ptr.head = a
  | a, e :: rest =>
    next_of s a = list_ptr.node e ∧ prev_of s (list_ptr.node e) = a ∧
      linked s (list_ptr.node e) rest

/-- The registry is a sound circular list holding the distinct subscribers `l`,
first linked last. -/
def is_registry (s : State) (l : List Nat) : Prop :=
  l.Nodup ∧ linked s list_ptr.head l

/-- Every subscriber of `l` has a valid filter (so `pass` reads valid memory
when it visits them). -/
def filters_live (s : State) (l : List Nat) : Prop :=
  ∀ e ∈ l, ∃ f, (s.privs e).filter = Ptr.live f

/-- The filter of subscriber `e` is valid and matches the packet. -/
def sub_match (s : State) (skb : sk_buff) (in_ out : Option Nat) (hooknum : Int)
    (e : Nat) : Bool :=
  match (s.privs e).filter with
  | Ptr.live f => filter_match f skb in_ out hooknum
  | _ => false

/-- The first subscriber of `l` whose filter matches the packet. -/
def first_match (s : State) (skb : sk_buff) (in_ out : Option Nat) (hooknum : Int)
    (l : List Nat) : Option Nat :=
  l.find? (sub_match s skb in_ out hooknum)

/-- The fields of a subscriber that are not its list pointers agree. -/
def payload_eq (a b : nh_private) : Prop :=
  a.filter = b.filter ∧ a.writer = b.writer ∧ a.skb_queue = b.skb_queue

/-- The flag word `setup_flags` computes, as one expression. -/
def setup_flags_word (k : Kernel) (f : nh_filter) : Nat :=
  f.flags ||| (if (k.dev_get_by_name f.in_dev).isSome then CHECK_IN else 0)
    ||| (if (k.dev_get_by_name f.out_dev).isSome then CHECK_OUT else 0)
    ||| (if f.saddr != 0 then CHECK_SADDR else 0)
    ||| (if f.daddr != 0 then CHECK_DADDR else 0)
    ||| (if f.dport != 0 then CHECK_DPORT else 0)
    ||| (if f.sport != 0 then CHECK_SPORT else 0)
    ||| (if f.proto != 0 then CHECK_PROTO else 0)

/-! ## Concrete inputs used by the witnesses -/

/-- A filter that matches every packet at hook point 0. -/
def any_filter : nh_filter :=
  { proto := 0, saddr := 0, daddr := 0, dport := 0, sport := 0, in_dev := "",
    out_dev := "", priority := 0, hooknum := 0, flags := 0, in_ := none, out := none }

/-- A kernel in which every allocation and copy succeeds, no interface name
resolves, no signal is pending, and fresh packets get the address 7. -/
def good_kernel : Kernel :=
  { dev_get_by_name := fun _ => none, kzalloc_filter := true, kzalloc_hook := true,
    kzalloc_writer := true, kmalloc_entry := true, copy_from_user := true,
    copy_to_user := true, nf_register_hook := 0, dev_alloc_skb := some 7,
    signal_pending := false }

/-- A TCP/IP packet at address 7. -/
def tracked_pkt : sk_buff :=
  { id := 7, iph := some { protocol := 6, saddr := 1, daddr := 2 },
    tph := some { source := 1000, dest := 80 }, len := 60 }

/-- A TCP/IP packet to port 80 at address 8. -/
def fresh_pkt : sk_buff :=
  { id := 8, iph := some { protocol := 6, saddr := 1, daddr := 2 },
    tph := some { source := 1000, dest := 80 }, len := 60 }

/-- A TCP/IP packet to port 443 at address 9. -/
def pkt443 : sk_buff :=
  { id := 9, iph := some { protocol := 6, saddr := 1, daddr := 2 },
    tph := some { source := 1000, dest := 443 }, len := 60 }

/-- The state a run ends in (`init` when it has none). -/
def state_of {α : Type} (o : Outcome (α × State)) : State :=
  match o with
  | Outcome.ok (_, s) => s
  | _ => init

/-- The descriptor of the scenario "point 4 (post-routing), port 80". -/
def dport80 : nh_filter := { any_filter with hooknum := 4, dport := 80 }

/-- The state after subscriber 0 installed `dport80` in the initial state. -/
def dport80_state : State :=
  state_of (nh_ioctl good_kernel init 0 (nh_req.NH_SET_FILTER dport80))

/-- A filter at point 4 whose mask is exactly `CHECK_DPORT`, for port 80. -/
def dport_only : nh_filter :=
  { any_filter with hooknum := 4, dport := 80, flags := CHECK_DPORT }

/-- An IP packet without transport header. -/
def no_tph_pkt : sk_buff :=
  { id := 10, iph := some { protocol := 1, saddr := 3, daddr := 4 }, tph := none,
    len := 28 }

/-- The state after subscriber 0 installed `any_filter` in the initial state. -/
def installed_A : State :=
  state_of (nh_ioctl good_kernel init 0 (nh_req.NH_SET_FILTER any_filter))

/-- The state after subscriber 1 then installed `any_filter` as well. -/
def installed_AB : State :=
  state_of (nh_ioctl good_kernel installed_A 1 (nh_req.NH_SET_FILTER any_filter))

/-- A descriptor whose user flags ask for the input-interface check and whose
interface name resolves to nothing under `good_kernel`. -/
def in_flagged : nh_filter := { any_filter with flags := CHECK_IN, in_dev := "eth9" }

/-- The same for the output interface. -/
def out_flagged : nh_filter := { any_filter with flags := CHECK_OUT, out_dev := "eth9" }

/-- The state after subscriber 0 installed `in_flagged` in the initial state. -/
def in_flagged_state : State :=
  state_of (nh_ioctl good_kernel init 0 (nh_req.NH_SET_FILTER in_flagged))

/-- The state after subscriber 0 installed `out_flagged` in the initial state. -/
def out_flagged_state : State :=
  state_of (nh_ioctl good_kernel init 0 (nh_req.NH_SET_FILTER out_flagged))

/-- The state inside `NH_SET_FILTER` right before `setup_filter` runs: the
descriptor `dport80` has been copied in and stored in `p->filter` of file 0. -/
def dport80_pending : State :=
  set_priv init 0 { init.privs 0 with filter := Ptr.live dport80 }

/-- The state after `nf_cb` queued `fresh_pkt` to subscriber 0 in `installed_A`. -/
def queued_state : State := state_of (nf_cb 2 installed_A 0 fresh_pkt none none)

/-- The kernel `good_kernel` with a signal pending for the caller. -/
def signal_kernel : Kernel := { good_kernel with signal_pending := true }

/-- The kernel `good_kernel` with a failing allocation of the hook record. -/
def nomem_kernel : Kernel := { good_kernel with kzalloc_hook := false }

/-- A writer in mode `TO_ROUTING_STACK` towards interface 1. -/
def routing_writer : nh_writer :=
  { dest_dev_str := "eth0", dest_dev := some 1, mode := nh_mode.TO_ROUTING_STACK }

/-- A writer in mode `TO_INTERFACE` towards interface 1. -/
def iface_writer : nh_writer :=
  { dest_dev_str := "eth0", dest_dev := some 1, mode := nh_mode.TO_INTERFACE }

/-- Subscriber 0 writes to the routing stack, subscriber 1 to the interface;
the registry is empty and the tracker holds 5, 7, 9, 7. -/
def writer_state : State :=
  { current_skbs := [5, 7, 9, 7], nh_privs := init.nh_privs,
    privs := fun i =>
      if i = 0 then { nh_open_priv with writer := Ptr.live routing_writer }
      else if i = 1 then { nh_open_priv with writer := Ptr.live iface_writer }
      else nh_open_priv,
    cb_in_use := fun _ => none }

/-- The state after subscriber 0 wrote 100 bytes in `writer_state`. -/
def written_state : State := state_of (nh_write good_kernel writer_state 0 100)

/-- A descriptor with the out-of-range hook point 5. -/
def bad_point : nh_filter := { any_filter with hooknum := 5 }

/-- The state after subscriber 0 asked for `bad_point` in the initial state. -/
def rejected_state : State :=
  state_of (nh_ioctl good_kernel init 0 (nh_req.NH_SET_FILTER bad_point))

/-- The state after subscriber 0 removed its filter in `queued_state`. -/
def removed_state : State :=
  state_of (nh_ioctl good_kernel queued_state 0 nh_req.NH_RM_FILTER)

/-- Subscriber 0 registered with `any_filter`; the tracker holds 5, 7, 9, 7. -/
def tracked_state : State := { installed_A with current_skbs := [5, 7, 9, 7] }

/-- A descriptor for port 443 at hook point 0. -/
def dport443 : nh_filter := { any_filter with dport := 443 }

/-- The state after subscriber 2 installed `dport443` in `installed_AB`: the
registry holds 2, 1, 0 in list order. -/
def installed_ABC : State :=
  state_of (nh_ioctl good_kernel installed_AB 2 (nh_req.NH_SET_FILTER dport443))

/-- The state after subscriber 0, registered in `installed_A`, asked for
`bad_point`: the request is rejected and the subscriber stays linked. -/
def relinked_state : State :=
  state_of (nh_ioctl good_kernel installed_A 0 (nh_req.NH_SET_FILTER bad_point))

/-- The state after subscriber 0, registered in `installed_A`, installed
`dport80` as well: both requests succeeded. -/
def twice_state : State :=
  state_of (nh_ioctl good_kernel installed_A 0 (nh_req.NH_SET_FILTER dport80))

/-! ## Basic lemmas -/

@[simp] theorem set_priv_privs (s : State) (file : Nat) (p : nh_private) (i : Nat) :
    (set_priv s file p).privs i = if i = file then p else s.privs i := rfl

@[simp] theorem set_priv_nh_privs (s : State) (file : Nat) (p : nh_private) :
    (set_priv s file p).nh_privs = s.nh_privs := rfl

@[simp] theorem set_priv_current_skbs (s : State) (file : Nat) (p : nh_private) :
    (set_priv s file p).current_skbs = s.current_skbs := rfl

@[simp] theorem set_priv_cb_in_use (s : State) (file : Nat) (p : nh_private) :
    (set_priv s file p).cb_in_use = s.cb_in_use := rfl

@[simp] theorem set_cb_privs (s : State) (idx : Nat) (h : nf_hook_ops) :
    (set_cb s idx h).privs = s.privs := rfl

@[simp] theorem set_cb_nh_privs (s : State) (idx : Nat) (h : nf_hook_ops) :
    (set_cb s idx h).nh_privs = s.nh_privs := rfl

@[simp] theorem set_cb_current_skbs (s : State) (idx : Nat) (h : nf_hook_ops) :
    (set_cb s idx h).current_skbs = s.current_skbs := rfl

/-! ## The list operations, pointer by pointer -/

theorem list_add_spec (s s1 : State) (new : Nat) (h : list_add s new = Outcome.ok s1) :
    (∀ r, next_of s1 r =
      if r = list_ptr.head then list_ptr.node new
      else if r = list_ptr.node new then s.nh_privs.next else next_of s r) ∧
    (∀ r, prev_of s1 r =
      if r = list_ptr.node new then list_ptr.head
      else if r = s.nh_privs.next then list_ptr.node new else prev_of s r) ∧
    (∀ q, payload_eq (s1.privs q) (s.privs q)) ∧
    s1.current_skbs = s.current_skbs ∧ s1.cb_in_use = s.cb_in_use ∧
    (s.nh_privs.next = list_ptr.head ∨ ∃ q, s.nh_privs.next = list_ptr.node q) := by
  unfold list_add at h
  cases hn : s.nh_privs.next with
  | null => simp [hn, set_prev] at h
  | poison1 => simp [hn, set_prev] at h
  | poison2 => simp [hn, set_prev] at h
  | head =>
    simp only [hn, set_prev, set_next, Outcome.ok.injEq] at h
    subst h
    refine ⟨?_, ?_, ?_, rfl, rfl, Or.inl rfl⟩
    · intro r
      cases r <;> simp [next_of]
      split_ifs <;> simp_all
    · intro r
      cases r <;> simp [prev_of]
      split_ifs <;> simp_all
    · intro q
      simp only [payload_eq, set_priv_privs]
      split_ifs <;> simp_all
  | node x =>
    simp only [hn, set_prev, set_next, Outcome.ok.injEq] at h
    subst h
    refine ⟨?_, ?_, ?_, rfl, rfl, Or.inr ⟨x, rfl⟩⟩
    · intro r
      cases r <;> simp [next_of]
      split_ifs <;> simp_all
    · intro r
      cases r <;> simp [prev_of]
      split_ifs <;> simp_all
    · intro q
      simp only [payload_eq, set_priv_privs]
      split_ifs <;> simp_all

theorem list_del_spec (s s1 : State) (entry : Nat) (h : list_del s entry = Outcome.ok s1) :
    (∀ r, next_of s1 r =
      if r = list_ptr.node entry then list_ptr.poison1
      else if r = (s.privs entry).list.prev then (s.privs entry).list.next
      else next_of s r) ∧
    (∀ r, prev_of s1 r =
      if r = list_ptr.node entry then list_ptr.poison2
      else if r = (s.privs entry).list.next then (s.privs entry).list.prev
      else prev_of s r) ∧
    (∀ q, payload_eq (s1.privs q) (s.privs q)) ∧
    s1.current_skbs = s.current_skbs ∧ s1.cb_in_use = s.cb_in_use := by
  unfold list_del at h
  cases hb : (s.privs entry).list.next <;> cases ha : (s.privs entry).list.prev <;>
    simp only [hb, ha, set_prev, set_next, Outcome.ok.injEq, set_priv_privs,
      set_priv_nh_privs, reduceCtorEq] at h
  all_goals
    subst h
    refine ⟨?_, ?_, ?_, rfl, rfl⟩
    · intro r
      cases r <;> simp [next_of]
      all_goals (split_ifs <;> simp_all)
    · intro r
      cases r <;> simp [prev_of]
      all_goals (split_ifs <;> simp_all)
    · intro q
      simp only [payload_eq, set_priv_privs]
      split_ifs <;> simp_all

/-! ## Registry shapes under pointer updates -/

theorem fwd_congr (s s1 : State) (l : List Nat) (a b : list_ptr)
    (h : ∀ e ∈ l, next_of s1 (list_ptr.node e) = next_of s (list_ptr.node e))
    (hf : fwd s a l b) : fwd s1 a l b := by
  induction l generalizing a with
  | nil => exact hf
  | cons e rest ih =>
    obtain ⟨h1, h2⟩ := hf
    refine ⟨h1, ?_⟩
    rw [h e (List.mem_cons_self e rest)]
    exact ih _ (fun x hx => h x (List.mem_cons_of_mem e hx)) h2

theorem linked_congr (s s1 : State) (l : List Nat) (a : list_ptr)
    (h0 : next_of s1 a = next_of s a)
    (h1 : ∀ e ∈ l, next_of s1 (list_ptr.node e) = next_of s (list_ptr.node e) ∧
      prev_of s1 (list_ptr.node e) = prev_of s (list_ptr.node e))
    (h2 : prev_of s1 list_ptr.head = prev_of s list_ptr.head)
    (hl : linked s a l) : linked s1 a l := by
  induction l generalizing a with
  | nil =>
    obtain ⟨h3, h4⟩ := hl
    exact ⟨by rw [h0, h3], by rw [h2, h4]⟩
  | cons e rest ih =>
    obtain ⟨h3, h4, h5⟩ := hl
    have he := h1 e (List.mem_cons_self e rest)
    refine ⟨by rw [h0, h3], by rw [he.2, h4], ?_⟩
    exact ih _ he.1 (fun x hx => h1 x (List.mem_cons_of_mem e hx)) h5

theorem linked_fwd (s : State) (l : List Nat) (a : list_ptr) (hl : linked s a l) :
    fwd s (next_of s a) l list_ptr.head := by
  induction l generalizing a with
  | nil => exact hl.1
  | cons e rest ih => exact ⟨hl.1, ih _ hl.2.2⟩

theorem linked_next_mem (s : State) (l : List Nat) (a : list_ptr) (x : Nat)
    (hl : linked s a l) (hx : x ∈ l) :
    next_of s (list_ptr.node x) = list_ptr.head ∨
      ∃ e ∈ l, next_of s (list_ptr.node x) = list_ptr.node e := by
  induction l generalizing a with
  | nil => cases hx
  | cons e rest ih =>
    obtain ⟨_, _, h5⟩ := hl
    rcases List.mem_cons.mp hx with h | h
    · subst h
      cases rest with
      | nil => exact Or.inl h5.1
      | cons y r => exact Or.inr ⟨y, by simp, h5.1⟩
    · rcases ih _ h5 h with h6 | ⟨y, hy, h6⟩
      · exact Or.inl h6
      · exact Or.inr ⟨y, List.mem_cons_of_mem e hy, h6⟩

theorem linked_prev_mem (s : State) (l : List Nat) (a : list_ptr) (x : Nat)
    (hl : linked s a l) (hx : x ∈ l) :
    prev_of s (list_ptr.node x) = a ∨
      ∃ e ∈ l, prev_of s (list_ptr.node x) = list_ptr.node e := by
  induction l generalizing a with
  | nil => cases hx
  | cons e rest ih =>
    obtain ⟨_, h4, h5⟩ := hl
    rcases List.mem_cons.mp hx with h | h
    · subst h
      exact Or.inl h4
    · rcases ih _ h5 h with h6 | ⟨y, hy, h6⟩
      · exact Or.inr ⟨e, List.mem_cons_self e rest, h6⟩
      · exact Or.inr ⟨y, List.mem_cons_of_mem e hy, h6⟩

theorem linked_next_not_self_head (s : State) (l : List Nat) (a : list_ptr) (x : Nat)
    (hl : linked s a l) (hx : x ∈ l) (y : Nat) (hy : y ∉ l) :
    next_of s (list_ptr.node x) ≠ list_ptr.node y := by
  intro h
  rcases linked_next_mem s l a x hl hx with h1 | ⟨e, he, h1⟩
  · rw [h1] at h
    cases h
  · rw [h1] at h
    cases h
    exact hy he

theorem is_registry_list_add (s s1 : State) (l : List Nat) (new : Nat)
    (hr : is_registry s l) (hn : new ∉ l) (h : list_add s new = Outcome.ok s1) :
    is_registry s1 (new :: l) := by
  obtain ⟨hnx, hpv, _, _, _, _⟩ := list_add_spec s s1 new h
  obtain ⟨hnd, hl⟩ := hr
  refine ⟨List.nodup_cons.mpr ⟨hn, hnd⟩, ?_, ?_, ?_⟩
  · rw [hnx]
    simp
  · rw [hpv]
    simp
  · cases l with
    | nil =>
      obtain ⟨h1, h2⟩ := hl
      have h1' : s.nh_privs.next = list_ptr.head := h1
      refine ⟨?_, ?_⟩
      · rw [hnx]
        simp [h1']
      · rw [hpv]
        simp [h1']
    | cons x rest =>
      obtain ⟨h1, h2, h3⟩ := hl
      have h1' : s.nh_privs.next = list_ptr.node x := h1
      have hxn : x ≠ new := fun h4 => hn (by simp [h4])
      have hxr : x ∉ rest := (List.nodup_cons.mp hnd).1
      refine ⟨?_, ?_, ?_⟩
      · rw [hnx]
        simp [h1']
      · rw [hpv]
        simp [h1', hxn]
      · apply linked_congr s s1 rest _ _ _ _ h3
        · rw [hnx]
          simp [hxn]
        · intro e he
          have hen : e ≠ new := fun h4 => hn (by simp [← h4, he])
          have hex : e ≠ x := fun h4 => hxr (by rw [← h4]; exact he)
          constructor
          · rw [hnx]
            simp [hen]
          · rw [hpv]
            simp [hen, h1', hex]
        · rw [hpv]
          simp [h1']

theorem list_add_succeeds (s : State) (new : Nat)
    (h1 : s.nh_privs.next = list_ptr.head ∨ ∃ q, s.nh_privs.next = list_ptr.node q) :
    ∃ s1, list_add s new = Outcome.ok s1 := by
  unfold list_add
  rcases h1 with h1 | ⟨q, h1⟩
  · rw [h1]
    exact ⟨_, rfl⟩
  · rw [h1]
    exact ⟨_, rfl⟩

theorem is_registry_head_valid (s : State) (l : List Nat) (hr : is_registry s l) :
    s.nh_privs.next = list_ptr.head ∨ ∃ q, s.nh_privs.next = list_ptr.node q := by
  cases l with
  | nil => exact Or.inl hr.2.1
  | cons x rest => exact Or.inr ⟨x, hr.2.1⟩

theorem linked_del (s s1 : State) (entry : Nat)
    (hnx : ∀ r, next_of s1 r =
      if r = list_ptr.node entry then list_ptr.poison1
      else if r = (s.privs entry).list.prev then (s.privs entry).list.next
      else next_of s r)
    (hpv : ∀ r, prev_of s1 r =
      if r = list_ptr.node entry then list_ptr.poison2
      else if r = (s.privs entry).list.next then (s.privs entry).list.prev
      else prev_of s r)
    (l : List Nat) (a : list_ptr) (hl : linked s a l) (hnd : l.Nodup)
    (ha : a ≠ list_ptr.node entry) (hal : ∀ e ∈ l, a ≠ list_ptr.node e)
    (hx : entry ∈ l) : linked s1 a (l.erase entry) := by
  induction l generalizing a with
  | nil => cases hx
  | cons x rest ih =>
    obtain ⟨h1, h2, h3⟩ := hl
    obtain ⟨hxr, hndr⟩ := List.nodup_cons.mp hnd
    by_cases hxe : x = entry
    · subst hxe
      rw [List.erase_cons_head]
      have hp : (s.privs x).list.prev = a := h2
      cases rest with
      | nil =>
        obtain ⟨h4, h5⟩ := h3
        have hn : (s.privs x).list.next = list_ptr.head := h4
        refine ⟨?_, ?_⟩
        · rw [hnx, hp, hn]
          simp [ha]
        · rw [hpv, hp, hn]
          simp
      | cons y r =>
        obtain ⟨h4, h5, h6⟩ := h3
        have hn : (s.privs x).list.next = list_ptr.node y := h4
        have hyx : y ≠ x := fun h7 => hxr (by simp [← h7])
        obtain ⟨hyr, _⟩ := List.nodup_cons.mp hndr
        refine ⟨?_, ?_, ?_⟩
        · rw [hnx, hp, hn]
          simp [ha]
        · rw [hpv, hp, hn]
          simp [hyx]
        · apply linked_congr s s1 r _ _ _ _ h6
          · rw [hnx, hp]
            have : list_ptr.node y ≠ a := fun h7 => hal y (by simp) h7.symm
            simp [hyx, this]
          · intro e he
            have hex : e ≠ x := fun h7 => hxr (by simp [← h7, he])
            have hey : e ≠ y := fun h7 => hyr (by rw [← h7]; exact he)
            have hea : list_ptr.node e ≠ a := fun h7 => hal e (by simp [he]) h7.symm
            constructor
            · rw [hnx, hp]
              simp [hex, hea]
            · rw [hpv, hn]
              simp [hex, hey]
          · rw [hpv, hn]
            simp
    · have hxe2 : entry ≠ x := fun h => hxe h.symm
      have her : entry ∈ rest := by
        rcases List.mem_cons.mp hx with h | h
        · exact absurd h hxe2
        · exact h
      have herase : (x :: rest).erase entry = x :: rest.erase entry := by
        rw [List.erase_cons_tail]
        simpa using hxe
      rw [herase]
      have hpne : (s.privs entry).list.prev ≠ a := by
        intro h
        rcases linked_prev_mem s rest (list_ptr.node x) entry h3 her with h7 | ⟨e, he, h7⟩
        · have h8 : (s.privs entry).list.prev = list_ptr.node x := h7
          rw [h8] at h
          exact hal x (by simp) h.symm
        · have h8 : (s.privs entry).list.prev = list_ptr.node e := h7
          rw [h8] at h
          exact hal e (by simp [he]) h.symm
      have hnne : (s.privs entry).list.next ≠ list_ptr.node x :=
        linked_next_not_self_head s rest (list_ptr.node x) entry h3 her x hxr
      refine ⟨?_, ?_, ?_⟩
      · rw [hnx]
        have : a ≠ (s.privs entry).list.prev := fun h => hpne h.symm
        simp [ha, this, h1]
      · rw [hpv]
        have : list_ptr.node x ≠ (s.privs entry).list.next := fun h => hnne h.symm
        simp [hxe, this, h2]
      · apply ih _ h3 hndr
        · simpa using hxe
        · intro e he h
          cases h
          exact hxr he
        · exact her

theorem list_del_succeeds (s : State) (entry : Nat)
    (hp : (s.privs entry).list.prev = list_ptr.head ∨
      ∃ q, (s.privs entry).list.prev = list_ptr.node q)
    (hn : (s.privs entry).list.next = list_ptr.head ∨
      ∃ q, (s.privs entry).list.next = list_ptr.node q) :
    ∃ s1, list_del s entry = Outcome.ok s1 := by
  unfold list_del
  rcases hp with hp | ⟨p, hp⟩ <;> rcases hn with hn | ⟨n, hn⟩ <;> rw [hp, hn] <;>
    exact ⟨_, rfl⟩

theorem is_registry_list_del (s : State) (l : List Nat) (entry : Nat)
    (hr : is_registry s l) (hx : entry ∈ l) :
    ∃ s1, list_del s entry = Outcome.ok s1 ∧ is_registry s1 (l.erase entry) := by
  obtain ⟨hnd, hl⟩ := hr
  have hp : (s.privs entry).list.prev = list_ptr.head ∨
      ∃ q, (s.privs entry).list.prev = list_ptr.node q := by
    rcases linked_prev_mem s l list_ptr.head entry hl hx with h | ⟨e, _, h⟩
    · exact Or.inl h
    · exact Or.inr ⟨e, h⟩
  have hn : (s.privs entry).list.next = list_ptr.head ∨
      ∃ q, (s.privs entry).list.next = list_ptr.node q := by
    rcases linked_next_mem s l list_ptr.head entry hl hx with h | ⟨e, _, h⟩
    · exact Or.inl h
    · exact Or.inr ⟨e, h⟩
  obtain ⟨s1, h1⟩ := list_del_succeeds s entry hp hn
  obtain ⟨hnx, hpv, _, _, _⟩ := list_del_spec s s1 entry h1
  refine ⟨s1, h1, List.Nodup.erase entry hnd, ?_⟩
  exact linked_del s s1 entry hnx hpv l list_ptr.head hl hnd (by simp) (by simp) hx

/-! ## The traversal of `pass` -/

theorem pass_loop_hit (s : State) (skb : sk_buff) (in_ out : Option Nat) (hooknum : Int)
    (fuel e : Nat) (h : sub_match s skb in_ out hooknum e = true) :
    pass_loop s skb in_ out hooknum (fuel + 1) (list_ptr.node e) = Outcome.ok (some e) := by
  unfold sub_match at h
  unfold pass_loop
  cases hf : (s.privs e).filter with
  | null => simp [hf] at h
  | freed => simp [hf] at h
  | live f =>
    simp only [hf] at h
    simp [h]

theorem pass_loop_miss (s : State) (skb : sk_buff) (in_ out : Option Nat) (hooknum : Int)
    (fuel e : Nat) (hl : ∃ f, (s.privs e).filter = Ptr.live f)
    (h : sub_match s skb in_ out hooknum e = false) :
    pass_loop s skb in_ out hooknum (fuel + 1) (list_ptr.node e) =
      pass_loop s skb in_ out hooknum fuel (next_of s (list_ptr.node e)) := by
  obtain ⟨f, hf⟩ := hl
  unfold sub_match at h
  simp only [hf] at h
  conv => lhs; unfold pass_loop
  simp [hf, h, next_of]

theorem pass_loop_skip (s : State) (skb : sk_buff) (in_ out : Option Nat) (hooknum : Int)
    (l : List Nat) (pos b : list_ptr) (n : Nat) (hf : fwd s pos l b)
    (hlive : filters_live s l)
    (hnone : ∀ e ∈ l, sub_match s skb in_ out hooknum e = false) :
    pass_loop s skb in_ out hooknum (l.length + n) pos =
      pass_loop s skb in_ out hooknum n b := by
  induction l generalizing pos with
  | nil =>
    have : pos = b := hf
    simp [this]
  | cons e rest ih =>
    obtain ⟨h1, h2⟩ := hf
    subst h1
    have : (e :: rest).length + n = (rest.length + n) + 1 := by simp; omega
    rw [this, pass_loop_miss s skb in_ out hooknum _ e (hlive e (List.mem_cons_self e rest))
      (hnone e (List.mem_cons_self e rest))]
    exact ih _ h2 (fun x hx => hlive x (List.mem_cons_of_mem e hx))
      (fun x hx => hnone x (List.mem_cons_of_mem e hx))

theorem first_match_none (s : State) (skb : sk_buff) (in_ out : Option Nat) (hooknum : Int)
    (l : List Nat) (h : first_match s skb in_ out hooknum l = none) :
    ∀ e ∈ l, sub_match s skb in_ out hooknum e = false := by
  intro e he
  have := List.find?_eq_none.mp h e he
  simpa using this

theorem first_match_some (s : State) (skb : sk_buff) (in_ out : Option Nat) (hooknum : Int)
    (l : List Nat) (c : Nat) (h : first_match s skb in_ out hooknum l = some c) :
    sub_match s skb in_ out hooknum c = true ∧
    ∃ l0 l1, l = l0 ++ c :: l1 ∧ ∀ e ∈ l0, sub_match s skb in_ out hooknum e = false := by
  unfold first_match at h
  induction l with
  | nil => simp at h
  | cons e rest ih =>
    by_cases hm : sub_match s skb in_ out hooknum e = true
    · simp [List.find?, hm] at h
      subst h
      exact ⟨hm, [], rest, rfl, by simp⟩
    · have hm2 : sub_match s skb in_ out hooknum e = false := by simpa using hm
      simp [List.find?, hm2] at h
      obtain ⟨h1, l0, l1, h2, h3⟩ := ih h
      refine ⟨h1, e :: l0, l1, by simp [h2], ?_⟩
      intro x hx
      rcases List.mem_cons.mp hx with h4 | h4
      · rw [h4]
        exact hm2
      · exact h3 x h4

theorem pass_loop_first (s : State) (skb : sk_buff) (in_ out : Option Nat) (hooknum : Int)
    (l : List Nat) (pos b : list_ptr) (c fuel : Nat) (hf : fwd s pos l b)
    (hlive : filters_live s l)
    (hc : first_match s skb in_ out hooknum l = some c) (hfuel : l.length ≤ fuel) :
    pass_loop s skb in_ out hooknum fuel pos = Outcome.ok (some c) := by
  induction l generalizing pos fuel with
  | nil => simp [first_match] at hc
  | cons e rest ih =>
    obtain ⟨h1, h2⟩ := hf
    subst h1
    obtain ⟨n, rfl⟩ : ∃ n, fuel = n + 1 := ⟨fuel - 1, by simp at hfuel; omega⟩
    by_cases hm : sub_match s skb in_ out hooknum e = true
    · have : c = e := by
        simp [first_match, List.find?, hm] at hc
        exact hc.symm
      rw [this]
      exact pass_loop_hit s skb in_ out hooknum n e hm
    · have hm2 : sub_match s skb in_ out hooknum e = false := by simpa using hm
      rw [pass_loop_miss s skb in_ out hooknum n e (hlive e (List.mem_cons_self e rest)) hm2]
      apply ih _ _ h2 (fun x hx => hlive x (List.mem_cons_of_mem e hx))
      · simpa [first_match, List.find?, hm2] using hc
      · simp at hfuel
        omega

theorem pass_loop_registry (s : State) (skb : sk_buff) (in_ out : Option Nat)
    (hooknum : Int) (l : List Nat) (pos : list_ptr) (fuel : Nat)
    (hf : fwd s pos l list_ptr.head) (hlive : filters_live s l)
    (hfuel : l.length + 1 ≤ fuel) :
    pass_loop s skb in_ out hooknum fuel pos =
      Outcome.ok (first_match s skb in_ out hooknum l) := by
  cases hc : first_match s skb in_ out hooknum l with
  | some c => exact pass_loop_first s skb in_ out hooknum l pos _ c fuel hf hlive hc (by omega)
  | none =>
    obtain ⟨n, rfl⟩ : ∃ n, fuel = l.length + (n + 1) := ⟨fuel - l.length - 1, by omega⟩
    rw [pass_loop_skip s skb in_ out hooknum l pos _ (n + 1) hf hlive
      (first_match_none s skb in_ out hooknum l hc)]
    rfl

theorem pass_loop_result_mem (s : State) (skb : sk_buff) (in_ out : Option Nat)
    (hooknum : Int) (l : List Nat) (pos : list_ptr) (fuel e : Nat)
    (hf : fwd s pos l list_ptr.head)
    (h : pass_loop s skb in_ out hooknum fuel pos = Outcome.ok (some e)) : e ∈ l := by
  induction l generalizing pos fuel with
  | nil =>
    have hp : pos = list_ptr.head := hf
    subst hp
    cases fuel <;> simp [pass_loop] at h
  | cons x rest ih =>
    obtain ⟨h1, h2⟩ := hf
    subst h1
    cases fuel with
    | zero => simp [pass_loop] at h
    | succ n =>
      unfold pass_loop at h
      cases hfl : (s.privs x).filter with
      | null => simp [hfl] at h
      | freed => simp [hfl] at h
      | live f =>
        simp only [hfl] at h
        split_ifs at h with hm
        · simp only [Outcome.ok.injEq, Option.some.injEq] at h
          rw [← h]
          exact List.mem_cons_self x rest
        · exact List.mem_cons_of_mem x (ih _ n h2 h)

theorem setup_flags_eq (k : Kernel) (f : nh_filter) :
    setup_flags k f = { f with in_ := k.dev_get_by_name f.in_dev,
                               out := k.dev_get_by_name f.out_dev,
                               flags := setup_flags_word k f } := by
  unfold setup_flags setup_flags_word
  by_cases h1 : (k.dev_get_by_name f.in_dev).isSome <;>
  by_cases h2 : (k.dev_get_by_name f.out_dev).isSome <;>
  by_cases h3 : f.saddr = 0 <;>
  by_cases h4 : f.daddr = 0 <;>
  by_cases h5 : f.dport = 0 <;>
  by_cases h6 : f.sport = 0 <;>
  by_cases h7 : f.proto = 0 <;>
  simp [h1, h2, h3, h4, h5, h6, h7]

theorem is_hooked_none_iff (l : List Nat) (skb : Nat) :
    is_hooked l skb = none ↔ skb ∉ l := by
  induction l with
  | nil => simp [is_hooked]
  | cons e rest ih =>
    unfold is_hooked
    by_cases h : e = skb
    · simp [h]
    · have h2 : ¬ skb = e := fun h3 => h h3.symm
      cases hr : is_hooked rest skb with
      | none => simp [h, h2, ih.mp hr]
      | some i =>
        have : skb ∈ rest := by
          by_contra hn
          rw [ih.mpr hn] at hr
          cases hr
        simp [h, this]

theorem is_hooked_some_split (l : List Nat) (skb i : Nat) (h : is_hooked l skb = some i) :
    ∃ l1 l2, l = l1 ++ skb :: l2 ∧ skb ∉ l1 ∧ l.eraseIdx i = l1 ++ l2 := by
  induction l generalizing i with
  | nil => simp [is_hooked] at h
  | cons e rest ih =>
    unfold is_hooked at h
    by_cases he : e = skb
    · simp [he] at h
      subst h
      exact ⟨[], rest, by simp [he], by simp, by simp⟩
    · simp only [he, if_false] at h
      cases hr : is_hooked rest skb with
      | none => simp [hr] at h
      | some j =>
        simp [hr] at h
        subst h
        obtain ⟨l1, l2, h1, h2, h3⟩ := ih j hr
        refine ⟨e :: l1, l2, by simp [h1], ?_, by simp [h3]⟩
        simp only [List.mem_cons, not_or]
        exact ⟨fun h4 => he h4.symm, h2⟩

theorem is_hooked_mem (l : List Nat) (skb : Nat) (h : skb ∈ l) :
    ∃ i, is_hooked l skb = some i := by
  cases hr : is_hooked l skb with
  | none => exact absurd h ((is_hooked_none_iff l skb).mp hr)
  | some i => exact ⟨i, rfl⟩

theorem flag_test (n i : Nat) : (n &&& (1 <<< i) != 0) = n.testBit i := by
  rw [Nat.one_shiftLeft, Nat.and_two_pow]
  cases h : n.testBit i <;> simp

theorem flag_clear (n i : Nat) : n &&& (1 <<< i) = 0 ↔ n.testBit i = false := by
  rw [← flag_test]
  simp

theorem ip_checks_eq (f : nh_filter) (iph : iphdr) :
    ip_checks f iph =
      ((!f.flags.testBit 0 || decide (f.proto = iph.protocol)) &&
       (!f.flags.testBit 3 || decide (f.saddr = iph.saddr)) &&
       (!f.flags.testBit 4 || decide (f.daddr = iph.daddr))) := by
  unfold ip_checks CHECK_PROTO CHECK_SADDR CHECK_DADDR
  simp only [flag_test]
  cases f.flags.testBit 0 <;> cases f.flags.testBit 3 <;> cases f.flags.testBit 4 <;>
    by_cases h1 : f.proto = iph.protocol <;> by_cases h2 : f.saddr = iph.saddr <;>
    by_cases h3 : f.daddr = iph.daddr <;> simp [h1, h2, h3]

theorem tcp_checks_eq (f : nh_filter) (tph : tcphdr) :
    tcp_checks f tph =
      ((!f.flags.testBit 5 || decide (f.sport = tph.source)) &&
       (!f.flags.testBit 6 || decide (f.dport = tph.dest))) := by
  unfold tcp_checks CHECK_SPORT CHECK_DPORT
  simp only [flag_test]
  cases f.flags.testBit 5 <;> cases f.flags.testBit 6 <;>
    by_cases h1 : f.sport = tph.source <;> by_cases h2 : f.dport = tph.dest <;>
    simp [h1, h2]

theorem filter_match_eq (f : nh_filter) (skb : sk_buff) (in_ out : Option Nat)
    (hooknum : Int) :
    filter_match f skb in_ out hooknum =
      (decide (f.hooknum = hooknum) &&
       (!f.flags.testBit 1 || decide (f.out = out)) &&
       (!f.flags.testBit 2 || decide (f.in_ = in_)) &&
       (match skb.iph with
        | some iph => ip_checks f iph
        | none => true) &&
       (match skb.tph with
        | some tph => tcp_checks f tph
        | none => true)) := by
  unfold filter_match CHECK_OUT CHECK_IN
  simp only [flag_test]
  by_cases h0 : f.hooknum = hooknum <;> by_cases h1 : f.out = out <;>
    by_cases h2 : f.in_ = in_ <;>
    cases f.flags.testBit 1 <;> cases f.flags.testBit 2 <;>
    cases skb.iph <;> cases skb.tph <;> simp [h0, h1, h2]

/-! ## Installing a filter -/

theorem setup_flags_hooknum (k : Kernel) (f : nh_filter) :
    (setup_flags k f).hooknum = f.hooknum := by
  rw [setup_flags_eq]

theorem setup_filter_ok (k : Kernel) (s s2 : State) (file : Nat) (f : nh_filter) (r : Int)
    (hf : (s.privs file).filter = Ptr.live f)
    (h : setup_filter k s file = Outcome.ok (r, s2)) (hr : r = 0) :
    (0 ≤ f.hooknum ∧ f.hooknum ≤ NF_IP_NUMHOOKS - 1) ∧
    s2.privs = (set_priv s file { s.privs file with filter := Ptr.live (setup_flags k f) }).privs ∧
    s2.nh_privs = s.nh_privs ∧ s2.current_skbs = s.current_skbs := by
  unfold setup_filter at h
  rw [hf] at h
  simp only at h
  split_ifs at h with h1 h2 h3
  · simp [EINVAL] at h
    omega
  · simp [ENOMEM] at h
    omega
  · split at h <;> cases h
    exact ⟨⟨by omega, by omega⟩, rfl, rfl, rfl⟩
  · split at h <;> cases h <;> exact ⟨⟨by omega, by omega⟩, rfl, rfl, rfl⟩

theorem set_filter_decomp (k : Kernel) (s s2 : State) (file : Nat) (arg : nh_filter)
    (h : nh_ioctl k s file (nh_req.NH_SET_FILTER arg) = Outcome.ok (0, s2)) :
    (0 ≤ arg.hooknum ∧ arg.hooknum ≤ NF_IP_NUMHOOKS - 1) ∧
    ∃ sm, list_add sm file = Outcome.ok s2 ∧
      sm.nh_privs = s.nh_privs ∧ sm.current_skbs = s.current_skbs ∧
      sm.privs file = { s.privs file with filter := Ptr.live (setup_flags k arg) } ∧
      ∀ q, q ≠ file → sm.privs q = s.privs q := by
  unfold nh_ioctl at h
  simp only at h
  split_ifs at h with h1 h2
  · simp [ENOMEM] at h
  · simp [EFAULT] at h
  · split at h
    · rename_i ret s3 hs
      have hf : ((set_priv s file { s.privs file with filter := Ptr.live arg }).privs file).filter
          = Ptr.live arg := by simp
      split_ifs at h with h3
      · obtain ⟨hv, hp, hn, hc⟩ := setup_filter_ok k _ s3 file arg ret hf hs h3
        split at h
        · rename_i s4 hadd
          simp only [Outcome.ok.injEq, Prod.mk.injEq] at h
          obtain ⟨_, h5⟩ := h
          subst h5
          refine ⟨hv, s3, hadd, by simp [hn], by simp [hc], by simp [hp], ?_⟩
          intro q hq
          simp [hp, hq]
        · cases h
      · simp only [Outcome.ok.injEq, Prod.mk.injEq] at h
        exact absurd h.1 h3
    · cases h

theorem next_of_congr (s s1 : State) (h1 : s1.nh_privs = s.nh_privs)
    (h2 : ∀ q, (s1.privs q).list = (s.privs q).list) (r : list_ptr) :
    next_of s1 r = next_of s r ∧ prev_of s1 r = prev_of s r := by
  cases r <;> simp [next_of, prev_of, h1, h2]

theorem is_registry_congr (s s1 : State) (l : List Nat) (h1 : s1.nh_privs = s.nh_privs)
    (h2 : ∀ q, (s1.privs q).list = (s.privs q).list) (hr : is_registry s l) :
    is_registry s1 l :=
  ⟨hr.1, linked_congr s s1 l _ (next_of_congr s s1 h1 h2 _).1
    (fun _ _ => next_of_congr s s1 h1 h2 _) (next_of_congr s s1 h1 h2 _).2 hr.2⟩

theorem set_filter_ok (k : Kernel) (s s2 : State) (file : Nat) (arg : nh_filter)
    (h : nh_ioctl k s file (nh_req.NH_SET_FILTER arg) = Outcome.ok (0, s2)) :
    (0 ≤ arg.hooknum ∧ arg.hooknum ≤ NF_IP_NUMHOOKS - 1) ∧
    s2.nh_privs.next = list_ptr.node file ∧
    (s2.privs file).list = { next := s.nh_privs.next, prev := list_ptr.head } ∧
    (s2.privs file).filter = Ptr.live (setup_flags k arg) ∧
    (s2.privs file).writer = (s.privs file).writer ∧
    (s2.privs file).skb_queue = (s.privs file).skb_queue ∧
    (∀ q, q ≠ file → payload_eq (s2.privs q) (s.privs q) ∧
      (s2.privs q).list.next = (s.privs q).list.next) ∧
    s2.current_skbs = s.current_skbs := by
  obtain ⟨hv, sm, hadd, hn, hc, hpf, hpo⟩ := set_filter_decomp k s s2 file arg h
  obtain ⟨hnx, hpv, hpay, hcur, _, _⟩ := list_add_spec sm s2 file hadd
  have h1 := hnx list_ptr.head
  have h2 := hnx (list_ptr.node file)
  have h3 := hpv (list_ptr.node file)
  simp only [next_of, prev_of, if_true, reduceCtorEq, if_false] at h1 h2 h3
  obtain ⟨p1, p2, p3⟩ := hpay file
  refine ⟨hv, h1, ?_, ?_, ?_, ?_, ?_, by rw [hcur, hc]⟩
  · cases hl : (s2.privs file).list with
    | mk n p =>
      rw [hl] at h2 h3
      simp only at h2 h3
      rw [h2, h3, hn]
  · rw [p1, hpf]
  · rw [p2, hpf]
  · rw [p3, hpf]
  · intro q hq
    obtain ⟨q1, q2, q3⟩ := hpay q
    have h4 := hnx (list_ptr.node q)
    simp only [next_of, reduceCtorEq, if_false, list_ptr.node.injEq, hq] at h4
    refine ⟨⟨by rw [q1, hpo q hq], by rw [q2, hpo q hq], by rw [q3, hpo q hq]⟩, ?_⟩
    rw [h4, hpo q hq]

theorem is_registry_set_filter (k : Kernel) (s s2 : State) (file : Nat) (arg : nh_filter)
    (l : List Nat) (hr : is_registry s l) (hn : file ∉ l)
    (h : nh_ioctl k s file (nh_req.NH_SET_FILTER arg) = Outcome.ok (0, s2)) :
    is_registry s2 (file :: l) := by
  obtain ⟨_, sm, hadd, hnp, _, hpf, hpo⟩ := set_filter_decomp k s s2 file arg h
  have hm : is_registry sm l := by
    apply is_registry_congr s sm l hnp _ hr
    intro q
    by_cases hq : q = file
    · rw [hq, hpf]
    · rw [hpo q hq]
  exact is_registry_list_add sm s2 l file hm hn hadd

theorem is_registry_init : is_registry init [] :=
  ⟨List.nodup_nil, rfl, rfl⟩

/-! ## Loop prevention (C2) -/

theorem nf_cb_tracked_eq (fuel : Nat) (s : State) (hooknum : Nat) (skb : sk_buff)
    (in_ out : Option Nat) (i : Nat) (hi : is_hooked s.current_skbs skb.id = some i) :
    nf_cb fuel s hooknum skb in_ out =
      Outcome.ok (NF_ACCEPT, { s with current_skbs := s.current_skbs.eraseIdx i }) := by
  unfold nf_cb
  rw [hi]

/-- C2: when the identity of the packet has an entry in `current_skbs`, `nf_cb`
returns `NF_ACCEPT` at every hook point and for every interface pair (with any
fuel: the registry is not traversed), changes no subscriber data (so no queue,
whatever the filters are) and no registry pointer, and deletes exactly one entry
holding that identity (the first one), every other entry staying in place and
in order. -/
theorem nf_cb_tracked_passthrough (fuel : Nat) (s : State) (hooknum : Nat) (skb : sk_buff)
    (in_ out : Option Nat) (h : skb.id ∈ s.current_skbs) :
    ∃ s1, nf_cb fuel s hooknum skb in_ out = Outcome.ok (NF_ACCEPT, s1) ∧
      (∀ q, (s1.privs q).skb_queue = (s.privs q).skb_queue) ∧
      s1.privs = s.privs ∧ s1.nh_privs = s.nh_privs ∧
      (∃ l1 l2, s.current_skbs = l1 ++ skb.id :: l2 ∧ skb.id ∉ l1 ∧
        s1.current_skbs = l1 ++ l2) ∧
      s1.current_skbs.length + 1 = s.current_skbs.length ∧
      (∀ x, x ≠ skb.id → s1.current_skbs.count x = s.current_skbs.count x) ∧
      s1.current_skbs.count skb.id + 1 = s.current_skbs.count skb.id := by
  obtain ⟨i, hi⟩ := is_hooked_mem s.current_skbs skb.id h
  obtain ⟨l1, l2, h1, h2, h3⟩ := is_hooked_some_split s.current_skbs skb.id i hi
  refine ⟨{ s with current_skbs := s.current_skbs.eraseIdx i }, ?_, ?_, rfl, rfl,
    ⟨l1, l2, h1, h2, h3⟩, ?_, ?_, ?_⟩
  · exact nf_cb_tracked_eq fuel s hooknum skb in_ out i hi
  · intro q
    rfl
  · show (s.current_skbs.eraseIdx i).length + 1 = s.current_skbs.length
    rw [h3, h1]
    simp
    omega
  · intro x hx
    show (s.current_skbs.eraseIdx i).count x = s.current_skbs.count x
    rw [h3, h1]
    simp [List.count_cons, hx.symm]
  · show (s.current_skbs.eraseIdx i).count skb.id + 1 = s.current_skbs.count skb.id
    rw [h3, h1]
    simp [List.count_cons]
    omega

/-- Witness for C2: a tracked packet that matches the filter of the registered
subscriber 0 is still passed through, even with no fuel at all. -/
theorem nf_cb_tracked_passthrough_witness :
    (7 : Nat) ∈ tracked_state.current_skbs ∧
    ∃ s1, nf_cb 0 tracked_state 0 tracked_pkt none none = Outcome.ok (NF_ACCEPT, s1) ∧
      (∀ q, (s1.privs q).skb_queue = (tracked_state.privs q).skb_queue) ∧
      s1.privs = tracked_state.privs ∧ s1.nh_privs = tracked_state.nh_privs ∧
      (∃ l1 l2, tracked_state.current_skbs = l1 ++ tracked_pkt.id :: l2 ∧
        tracked_pkt.id ∉ l1 ∧ s1.current_skbs = l1 ++ l2) ∧
      s1.current_skbs.length + 1 = tracked_state.current_skbs.length ∧
      (∀ x, x ≠ tracked_pkt.id →
        s1.current_skbs.count x = tracked_state.current_skbs.count x) ∧
      s1.current_skbs.count tracked_pkt.id + 1 =
        tracked_state.current_skbs.count tracked_pkt.id :=
  ⟨by decide, nf_cb_tracked_passthrough 0 tracked_state 0 tracked_pkt none none (by decide)⟩

/-! ## One outcome per interception (C9) -/

theorem nf_cb_untracked (fuel : Nat) (s : State) (hooknum : Nat) (skb : sk_buff)
    (in_ out : Option Nat) (h : skb.id ∉ s.current_skbs) :
    nf_cb fuel s hooknum skb in_ out =
      match pass fuel s skb in_ out (int_of_unsigned hooknum) with
      | Outcome.fault => Outcome.fault
      | Outcome.out_of_fuel => Outcome.out_of_fuel
      | Outcome.ok (some p) => Outcome.ok (NF_STOLEN, skb_queue_tail s p skb)
      | Outcome.ok none => Outcome.ok (NF_ACCEPT, s) := by
  unfold nf_cb
  rw [(is_hooked_none_iff s.current_skbs skb.id).mpr h]

theorem skb_queue_tail_self (s : State) (p : Nat) (skb : sk_buff) :
    ((skb_queue_tail s p skb).privs p).skb_queue = (s.privs p).skb_queue ++ [skb] := by
  simp [skb_queue_tail]

theorem skb_queue_tail_other (s : State) (p q : Nat) (skb : sk_buff) (h : q ≠ p) :
    (skb_queue_tail s p skb).privs q = s.privs q := by
  simp [skb_queue_tail, h]

theorem pass_registry (fuel : Nat) (s : State) (skb : sk_buff) (in_ out : Option Nat)
    (hooknum : Int) (l : List Nat) (hr : is_registry s l) (hlive : filters_live s l)
    (hfuel : l.length + 1 ≤ fuel) :
    pass fuel s skb in_ out hooknum = Outcome.ok (first_match s skb in_ out hooknum l) :=
  pass_loop_registry s skb in_ out hooknum l _ fuel (linked_fwd s l _ hr.2) hlive hfuel

/-- On a sound registry whose subscribers all have a valid filter, and with
fuel for one more test than there are subscribers, `nf_cb` returns, and exactly
one of two outcomes holds: `NF_ACCEPT` with every queue unchanged, or
`NF_STOLEN` with the packet appended to the queue of the subscriber `pass`
returns and every other subscriber unchanged. -/
theorem nf_cb_one_outcome_sound_registry (fuel : Nat) (s : State) (hooknum : Nat)
    (skb : sk_buff) (in_ out : Option Nat) (l : List Nat) (hr : is_registry s l)
    (hlive : filters_live s l) (hfuel : l.length + 1 ≤ fuel) :
    ∃ v s1, nf_cb fuel s hooknum skb in_ out = Outcome.ok (v, s1) ∧
      (((v = NF_ACCEPT ∧ ∀ q, (s1.privs q).skb_queue = (s.privs q).skb_queue) ∧
          ¬ v = NF_STOLEN) ∨
       ((v = NF_STOLEN ∧ ∃ p, pass fuel s skb in_ out (int_of_unsigned hooknum) =
            Outcome.ok (some p) ∧
          (s1.privs p).skb_queue = (s.privs p).skb_queue ++ [skb] ∧
          ∀ q, q ≠ p → s1.privs q = s.privs q) ∧
          ¬ v = NF_ACCEPT)) ∧
      (v = NF_STOLEN ↔ (skb.id ∉ s.current_skbs ∧
        ∃ p, pass fuel s skb in_ out (int_of_unsigned hooknum) = Outcome.ok (some p))) := by
  by_cases ht : skb.id ∈ s.current_skbs
  · obtain ⟨i, hi⟩ := is_hooked_mem s.current_skbs skb.id ht
    refine ⟨NF_ACCEPT, _, nf_cb_tracked_eq fuel s hooknum skb in_ out i hi,
      Or.inl ⟨⟨rfl, fun _ => rfl⟩, by decide⟩, ?_⟩
    constructor
    · intro h
      exact absurd h (by decide)
    · intro h
      exact absurd ht h.1
  · have hp := pass_registry fuel s skb in_ out (int_of_unsigned hooknum) l hr hlive hfuel
    rw [nf_cb_untracked fuel s hooknum skb in_ out ht, hp]
    cases first_match s skb in_ out (int_of_unsigned hooknum) l with
    | none =>
      refine ⟨NF_ACCEPT, s, rfl, Or.inl ⟨⟨rfl, fun _ => rfl⟩, by decide⟩, ?_⟩
      constructor
      · intro h
        exact absurd h (by decide)
      · intro h
        obtain ⟨_, p, hp2⟩ := h
        cases hp2
    | some p =>
      refine ⟨NF_STOLEN, skb_queue_tail s p skb, rfl, Or.inr ⟨⟨rfl, p, rfl, ?_, ?_⟩,
        by decide⟩, ?_⟩
      · exact skb_queue_tail_self s p skb
      · intro q hq
        exact skb_queue_tail_other s p q skb hq
      · constructor
        · intro _
          exact ⟨ht, p, rfl⟩
        · intro _
          rfl

theorem pass_loop_self_cycle (s : State) (skb : sk_buff) (in_ out : Option Nat)
    (hooknum : Int) (file : Nat) (f : nh_filter)
    (hf : (s.privs file).filter = Ptr.live f)
    (hm : filter_match f skb in_ out hooknum = false)
    (hnext : (s.privs file).list.next = list_ptr.node file) (fuel : Nat) :
    pass_loop s skb in_ out hooknum fuel (list_ptr.node file) = Outcome.out_of_fuel := by
  induction fuel with
  | zero => rfl
  | succ n ih =>
    unfold pass_loop
    simp only [hf, hm, hnext]
    simpa using ih

/-- C9, the behaviour of the code when a registered subscriber, linked first in
`nh_privs`, issues `NH_SET_FILTER` again.  If the new descriptor has an invalid
hook point, the request returns `-EINVAL` and releases the descriptor, but the
subscriber stays linked with `p->filter` pointing to released memory: every
later `nf_cb` for an untracked packet reads it in `pass` (a fault), so it has
neither of the two outcomes.  If the request succeeds, `list_add` links the
node a second time and its `next` pointer now points to the node itself: for
every untracked packet that the new filter does not match, the loop of `pass`
never ends, whatever the fuel, and `nf_cb` returns no verdict. -/
theorem nf_cb_after_second_set_filter (k : Kernel) (s : State) (file : Nat)
    (arg : nh_filter) (hhead : s.nh_privs.next = list_ptr.node file)
    (halloc : k.kzalloc_filter = true) (hcopy : k.copy_from_user = true) :
    ((arg.hooknum < 0 ∨ arg.hooknum > NF_IP_NUMHOOKS - 1) →
      ∃ s1, nh_ioctl k s file (nh_req.NH_SET_FILTER arg) = Outcome.ok (-EINVAL, s1) ∧
        s1.nh_privs.next = list_ptr.node file ∧
        (s1.privs file).filter = Ptr.freed ∧
        ∀ (fuel hooknum : Nat) (skb : sk_buff) (in_ out : Option Nat),
          skb.id ∉ s1.current_skbs →
          nf_cb (fuel + 1) s1 hooknum skb in_ out = Outcome.fault) ∧
    (∀ s2, nh_ioctl k s file (nh_req.NH_SET_FILTER arg) = Outcome.ok (0, s2) →
      s2.nh_privs.next = list_ptr.node file ∧
      (s2.privs file).list.next = list_ptr.node file ∧
      (s2.privs file).filter = Ptr.live (setup_flags k arg) ∧
      ∀ (fuel hooknum : Nat) (skb : sk_buff) (in_ out : Option Nat),
        skb.id ∉ s2.current_skbs →
        filter_match (setup_flags k arg) skb in_ out (int_of_unsigned hooknum) = false →
        nf_cb fuel s2 hooknum skb in_ out = Outcome.out_of_fuel) := by
  constructor
  · intro hbad
    have hne : ¬ (-EINVAL = 0) := by decide
    refine ⟨set_priv (set_priv s file { s.privs file with filter := Ptr.live arg }) file
      { (set_priv s file { s.privs file with filter := Ptr.live arg }).privs file with
        filter := Ptr.freed }, ?_, hhead, by simp, ?_⟩
    · unfold nh_ioctl setup_filter
      simp [halloc, hcopy, hbad, hne]
    · intro fuel hooknum skb in_ out hun
      rw [nf_cb_untracked _ _ hooknum skb in_ out hun]
      unfold pass
      simp only [set_priv_nh_privs, hhead]
      unfold pass_loop
      simp
  · intro s2 h
    obtain ⟨_, h1, h2, h3, _, _, _, _⟩ := set_filter_ok k s s2 file arg h
    have hnext : (s2.privs file).list.next = list_ptr.node file := by rw [h2, hhead]
    refine ⟨h1, hnext, h3, ?_⟩
    intro fuel hooknum skb in_ out hun hm
    rw [nf_cb_untracked _ _ hooknum skb in_ out hun]
    unfold pass
    rw [h1, pass_loop_self_cycle s2 skb in_ out _ file _ h3 hm hnext fuel]

/-- Witness for C9: subscriber 0, registered in `installed_A`, asks for hook
point 5 (rejected, then `nf_cb` faults), or installs `dport80` as well (accepted,
then `nf_cb` never returns for a packet to port 443 at point 4). -/
theorem nf_cb_after_second_set_filter_witness :
    installed_A.nh_privs.next = list_ptr.node 0 ∧
    (∃ s1, nh_ioctl good_kernel installed_A 0 (nh_req.NH_SET_FILTER bad_point) =
        Outcome.ok (-EINVAL, s1) ∧
      s1.nh_privs.next = list_ptr.node 0 ∧
      (s1.privs 0).filter = Ptr.freed ∧
      ∀ (fuel hooknum : Nat) (skb : sk_buff) (in_ out : Option Nat),
        skb.id ∉ s1.current_skbs →
        nf_cb (fuel + 1) s1 hooknum skb in_ out = Outcome.fault) ∧
    nf_cb 5 relinked_state 0 fresh_pkt none none = Outcome.fault ∧
    nh_ioctl good_kernel installed_A 0 (nh_req.NH_SET_FILTER dport80) =
      Outcome.ok (0, twice_state) ∧
    (twice_state.nh_privs.next = list_ptr.node 0 ∧
      (twice_state.privs 0).list.next = list_ptr.node 0 ∧
      (twice_state.privs 0).filter = Ptr.live (setup_flags good_kernel dport80) ∧
      ∀ (fuel hooknum : Nat) (skb : sk_buff) (in_ out : Option Nat),
        skb.id ∉ twice_state.current_skbs →
        filter_match (setup_flags good_kernel dport80) skb in_ out
          (int_of_unsigned hooknum) = false →
        nf_cb fuel twice_state hooknum skb in_ out = Outcome.out_of_fuel) ∧
    nf_cb 1000 twice_state 4 pkt443 none none = Outcome.out_of_fuel :=
  ⟨rfl,
    (nf_cb_after_second_set_filter good_kernel installed_A 0 bad_point rfl rfl rfl).1
      (Or.inr (by decide)),
    rfl, rfl,
    (nf_cb_after_second_set_filter good_kernel installed_A 0 dport80 rfl rfl rfl).2
      twice_state rfl,
    ((nf_cb_after_second_set_filter good_kernel installed_A 0 dport80 rfl rfl rfl).2
      twice_state rfl).2.2.2 1000 4 pkt443 none none (by decide) (by decide)⟩

/-! ## Dimension-skip policy (C4) -/

theorem pass_head_match (fuel : Nat) (s : State) (skb : sk_buff) (in_ out : Option Nat)
    (hooknum : Int) (e : Nat) (f : nh_filter) (hl : s.nh_privs.next = list_ptr.node e)
    (hf : (s.privs e).filter = Ptr.live f)
    (hm : filter_match f skb in_ out hooknum = true) :
    pass (fuel + 1) s skb in_ out hooknum = Outcome.ok (some e) := by
  unfold pass
  rw [hl]
  apply pass_loop_hit
  simp [sub_match, hf, hm]

theorem int_of_unsigned_small (n : Nat) (h : n < 2 ^ 31) : int_of_unsigned n = (n : Int) := by
  unfold int_of_unsigned
  have h1 : n % 2 ^ 32 = n := Nat.mod_eq_of_lt (by omega)
  rw [h1, if_pos h]

theorem filter_match_dport_only (f : nh_filter) (skb : sk_buff) (in_ out : Option Nat)
    (hf : f.flags = CHECK_DPORT) :
    filter_match f skb in_ out f.hooknum =
      match skb.tph with
      | some t => decide (f.dport = t.dest)
      | none => true := by
  have t0 : (CHECK_DPORT).testBit 0 = false := by decide
  have t1 : (CHECK_DPORT).testBit 1 = false := by decide
  have t2 : (CHECK_DPORT).testBit 2 = false := by decide
  have t3 : (CHECK_DPORT).testBit 3 = false := by decide
  have t4 : (CHECK_DPORT).testBit 4 = false := by decide
  have t5 : (CHECK_DPORT).testBit 5 = false := by decide
  have t6 : (CHECK_DPORT).testBit 6 = true := by decide
  rw [filter_match_eq]
  cases h1 : skb.iph <;> cases h2 : skb.tph <;>
    simp [ip_checks_eq, tcp_checks_eq, hf, t0, t1, t2, t3, t4, t5, t6]

/-- C4: a filter whose mask is exactly `CHECK_DPORT` matches a packet at its
hook point when the packet has no transport header, and otherwise exactly when
the destination port equals the filter's; the result is the same for any two
packets and interface pairs that agree on the destination port.  When such a
filter is the first of the registry and matches, `pass` returns its subscriber
(one unit of fuel is enough).  For any
filter, a dimension whose mask bit is clear has no influence on the match:
changing the packet in that dimension alone leaves the result unchanged. -/
theorem dimension_skip (f : nh_filter) (skb : sk_buff) (in_ out : Option Nat)
    (hooknum : Int) :
    (f.flags = CHECK_DPORT →
      (filter_match f skb in_ out f.hooknum = true ↔
        ∀ t, skb.tph = some t → t.dest = f.dport) ∧
      (skb.tph = none → filter_match f skb in_ out f.hooknum = true) ∧
      (∀ (skb2 : sk_buff) (in2 out2 : Option Nat),
        skb2.tph.map tcphdr.dest = skb.tph.map tcphdr.dest →
        filter_match f skb2 in2 out2 f.hooknum = filter_match f skb in_ out f.hooknum) ∧
      (∀ (s : State) (e fuel : Nat), s.nh_privs.next = list_ptr.node e →
        (s.privs e).filter = Ptr.live f →
        (∀ t, skb.tph = some t → t.dest = f.dport) →
        pass (fuel + 1) s skb in_ out f.hooknum = Outcome.ok (some e))) ∧
    (f.flags &&& CHECK_IN = 0 → ∀ in2,
      filter_match f skb in2 out hooknum = filter_match f skb in_ out hooknum) ∧
    (f.flags &&& CHECK_OUT = 0 → ∀ out2,
      filter_match f skb in_ out2 hooknum = filter_match f skb in_ out hooknum) ∧
    (f.flags &&& CHECK_PROTO = 0 → ∀ ip ip2 : iphdr,
      ip2.saddr = ip.saddr → ip2.daddr = ip.daddr →
      filter_match f { skb with iph := some ip2 } in_ out hooknum =
        filter_match f { skb with iph := some ip } in_ out hooknum) ∧
    (f.flags &&& CHECK_SADDR = 0 → ∀ ip ip2 : iphdr,
      ip2.protocol = ip.protocol → ip2.daddr = ip.daddr →
      filter_match f { skb with iph := some ip2 } in_ out hooknum =
        filter_match f { skb with iph := some ip } in_ out hooknum) ∧
    (f.flags &&& CHECK_DADDR = 0 → ∀ ip ip2 : iphdr,
      ip2.protocol = ip.protocol → ip2.saddr = ip.saddr →
      filter_match f { skb with iph := some ip2 } in_ out hooknum =
        filter_match f { skb with iph := some ip } in_ out hooknum) ∧
    (f.flags &&& CHECK_SPORT = 0 → ∀ t t2 : tcphdr, t2.dest = t.dest →
      filter_match f { skb with tph := some t2 } in_ out hooknum =
        filter_match f { skb with tph := some t } in_ out hooknum) ∧
    (f.flags &&& CHECK_DPORT = 0 → ∀ t t2 : tcphdr, t2.source = t.source →
      filter_match f { skb with tph := some t2 } in_ out hooknum =
        filter_match f { skb with tph := some t } in_ out hooknum) := by
  refine ⟨?_, ?_, ?_, ?_, ?_, ?_, ?_, ?_⟩
  · intro hf
    have key := filter_match_dport_only f skb in_ out hf
    refine ⟨?_, ?_, ?_, ?_⟩
    · rw [key]
      cases h2 : skb.tph with
      | none => simp
      | some t =>
        simp only [decide_eq_true_eq, Option.some.injEq]
        constructor
        · intro h t2 ht2
          rw [← ht2, h]
        · intro h
          exact (h t rfl).symm
    · intro h2
      rw [key, h2]
    · intro skb2 in2 out2 h
      rw [key, filter_match_dport_only f skb2 in2 out2 hf]
      cases h2 : skb.tph <;> cases h3 : skb2.tph <;> simp [h2, h3] at h ⊢
      rw [h]
    · intro s e fuel hl hlive hd
      apply pass_head_match fuel s skb in_ out f.hooknum e f hl hlive
      rw [key]
      cases h2 : skb.tph with
      | none => rfl
      | some t => simp [hd t h2]
  · intro h in2
    have hb := (flag_clear f.flags 2).mp h
    simp [filter_match_eq, hb]
  · intro h out2
    have hb := (flag_clear f.flags 1).mp h
    simp [filter_match_eq, hb]
  · intro h ip ip2 h1 h2
    have hb := (flag_clear f.flags 0).mp h
    simp [filter_match_eq, ip_checks_eq, hb, h1, h2]
  · intro h ip ip2 h1 h2
    have hb := (flag_clear f.flags 3).mp h
    simp [filter_match_eq, ip_checks_eq, hb, h1, h2]
  · intro h ip ip2 h1 h2
    have hb := (flag_clear f.flags 4).mp h
    simp [filter_match_eq, ip_checks_eq, hb, h1, h2]
  · intro h t t2 h1
    have hb := (flag_clear f.flags 5).mp h
    simp [filter_match_eq, tcp_checks_eq, hb, h1]
  · intro h t t2 h1
    have hb := (flag_clear f.flags 6).mp h
    simp [filter_match_eq, tcp_checks_eq, hb, h1]

/-- Witness for C4: the filter with mask `CHECK_DPORT` and port 80 at point 4,
on a packet without transport header and on a packet to port 80. -/
theorem dimension_skip_witness :
    dport_only.flags = CHECK_DPORT ∧
    dport_only.flags &&& CHECK_IN = 0 ∧ dport_only.flags &&& CHECK_OUT = 0 ∧
    dport_only.flags &&& CHECK_PROTO = 0 ∧ dport_only.flags &&& CHECK_SADDR = 0 ∧
    dport_only.flags &&& CHECK_DADDR = 0 ∧ dport_only.flags &&& CHECK_SPORT = 0 ∧
    any_filter.flags &&& CHECK_DPORT = 0 ∧
    filter_match dport_only no_tph_pkt (some 1) (some 2) dport_only.hooknum = true ∧
    (filter_match dport_only fresh_pkt (some 1) none dport_only.hooknum = true ↔
      ∀ t, fresh_pkt.tph = some t → t.dest = dport_only.dport) ∧
    (∀ (skb2 : sk_buff) (in2 out2 : Option Nat),
      skb2.tph.map tcphdr.dest = fresh_pkt.tph.map tcphdr.dest →
      filter_match dport_only skb2 in2 out2 dport_only.hooknum =
        filter_match dport_only fresh_pkt (some 1) none dport_only.hooknum) ∧
    pass 1 dport80_state no_tph_pkt (some 1) (some 2) dport_only.hooknum =
      Outcome.ok (some 0) ∧
    (∀ in2, filter_match dport_only fresh_pkt in2 none 4 =
      filter_match dport_only fresh_pkt (some 1) none 4) ∧
    (∀ out2, filter_match dport_only fresh_pkt (some 1) out2 4 =
      filter_match dport_only fresh_pkt (some 1) none 4) ∧
    (∀ ip ip2 : iphdr, ip2.saddr = ip.saddr → ip2.daddr = ip.daddr →
      filter_match dport_only { fresh_pkt with iph := some ip2 } (some 1) none 4 =
        filter_match dport_only { fresh_pkt with iph := some ip } (some 1) none 4) ∧
    (∀ ip ip2 : iphdr, ip2.protocol = ip.protocol → ip2.daddr = ip.daddr →
      filter_match dport_only { fresh_pkt with iph := some ip2 } (some 1) none 4 =
        filter_match dport_only { fresh_pkt with iph := some ip } (some 1) none 4) ∧
    (∀ ip ip2 : iphdr, ip2.protocol = ip.protocol → ip2.saddr = ip.saddr →
      filter_match dport_only { fresh_pkt with iph := some ip2 } (some 1) none 4 =
        filter_match dport_only { fresh_pkt with iph := some ip } (some 1) none 4) ∧
    (∀ t t2 : tcphdr, t2.dest = t.dest →
      filter_match dport_only { fresh_pkt with tph := some t2 } (some 1) none 4 =
        filter_match dport_only { fresh_pkt with tph := some t } (some 1) none 4) ∧
    (∀ t t2 : tcphdr, t2.source = t.source →
      filter_match any_filter { fresh_pkt with tph := some t2 } none none 0 =
        filter_match any_filter { fresh_pkt with tph := some t } none none 0) :=
  ⟨rfl, by decide, by decide, by decide, by decide, by decide, by decide, by decide,
    ((dimension_skip dport_only no_tph_pkt (some 1) (some 2) 4).1 rfl).2.1 rfl,
    ((dimension_skip dport_only fresh_pkt (some 1) none 4).1 rfl).1,
    ((dimension_skip dport_only fresh_pkt (some 1) none 4).1 rfl).2.2.1,
    ((dimension_skip dport_only no_tph_pkt (some 1) (some 2) 4).1 rfl).2.2.2
      dport80_state 0 0 rfl rfl (by decide),
    (dimension_skip dport_only fresh_pkt (some 1) none 4).2.1 (by decide),
    (dimension_skip dport_only fresh_pkt (some 1) none 4).2.2.1 (by decide),
    (dimension_skip dport_only fresh_pkt (some 1) none 4).2.2.2.1 (by decide),
    (dimension_skip dport_only fresh_pkt (some 1) none 4).2.2.2.2.1 (by decide),
    (dimension_skip dport_only fresh_pkt (some 1) none 4).2.2.2.2.2.1 (by decide),
    (dimension_skip dport_only fresh_pkt (some 1) none 4).2.2.2.2.2.2.1 (by decide),
    (dimension_skip any_filter fresh_pkt none none 0).2.2.2.2.2.2.2 (by decide)⟩

/-! ## Destination-port filtering end to end (C3) -/

theorem setup_flags_dport_only (k : Kernel) (arg : nh_filter)
    (hd0 : arg.dport ≠ 0) (hflags : arg.flags = 0) (hproto : arg.proto = 0)
    (hsa : arg.saddr = 0) (hda : arg.daddr = 0) (hsp : arg.sport = 0)
    (hin : k.dev_get_by_name arg.in_dev = none)
    (hout : k.dev_get_by_name arg.out_dev = none) :
    (setup_flags k arg).flags = CHECK_DPORT := by
  rw [setup_flags_eq]
  simp [setup_flags_word, hd0, hflags, hproto, hsa, hda, hsp, hin, hout]

theorem pass_single (fuel : Nat) (s : State) (skb : sk_buff) (in_ out : Option Nat)
    (hooknum : Int) (e : Nat) (f : nh_filter) (hl : s.nh_privs.next = list_ptr.node e)
    (hn : (s.privs e).list.next = list_ptr.head)
    (hf : (s.privs e).filter = Ptr.live f) (hfuel : 2 ≤ fuel) :
    pass fuel s skb in_ out hooknum =
      Outcome.ok (if filter_match f skb in_ out hooknum then some e else none) := by
  have hfwd : fwd s s.nh_privs.next [e] list_ptr.head := ⟨hl, hn⟩
  have hlive : filters_live s [e] := by
    intro x hx
    have : x = e := by simpa using hx
    exact ⟨f, by rw [this, hf]⟩
  have h := pass_loop_registry s skb in_ out hooknum [e] _ fuel hfwd hlive (by simpa using hfuel)
  unfold pass
  rw [h]
  simp only [first_match, List.find?, sub_match, hf]
  cases filter_match f skb in_ out hooknum <;> rfl

/-- C3: the only registered subscriber installed, with `NH_SET_FILTER`, a
descriptor with hook point `p`, destination port `d ≠ 0` and every other match
field zero or empty (the empty interface name resolving to no device).  Then for
every untracked packet with a transport header (with or without a network
header) arriving at `p`, `nf_cb` (with fuel for the two loop tests of `pass`)
returns `NF_STOLEN` and appends the packet to that subscriber's queue when the
destination port is `d`, and returns `NF_ACCEPT` with the state (hence the
queue) unchanged when it is not. -/
theorem dport_filter_end_to_end (k : Kernel) (s s1 : State) (file : Nat) (arg : nh_filter)
    (p d : Nat) (hreg : s.nh_privs.next = list_ptr.head)
    (hp : arg.hooknum = (p : Int)) (hd : arg.dport = d) (hd0 : d ≠ 0)
    (hflags : arg.flags = 0) (hproto : arg.proto = 0) (hsa : arg.saddr = 0)
    (hda : arg.daddr = 0) (hsp : arg.sport = 0)
    (hin : arg.in_dev = "") (hout : arg.out_dev = "")
    (hres : k.dev_get_by_name "" = none)
    (hinst : nh_ioctl k s file (nh_req.NH_SET_FILTER arg) = Outcome.ok (0, s1))
    (skb : sk_buff) (in_ out : Option Nat) (t : tcphdr) (ht : skb.tph = some t)
    (hun : skb.id ∉ s1.current_skbs) (fuel : Nat) (hfuel : 2 ≤ fuel) :
    (t.dest = d → ∃ s2, nf_cb fuel s1 p skb in_ out = Outcome.ok (NF_STOLEN, s2) ∧
      (s2.privs file).skb_queue = (s1.privs file).skb_queue ++ [skb] ∧
      ∀ q, q ≠ file → s2.privs q = s1.privs q) ∧
    (t.dest ≠ d → nf_cb fuel s1 p skb in_ out = Outcome.ok (NF_ACCEPT, s1)) := by
  obtain ⟨hv, hl, hlist, hf, _, _, _, _⟩ := set_filter_ok k s s1 file arg hinst
  have hn : (s1.privs file).list.next = list_ptr.head := by rw [hlist, hreg]
  have hfl : (setup_flags k arg).flags = CHECK_DPORT :=
    setup_flags_dport_only k arg (by rw [hd]; exact hd0) hflags hproto hsa hda hsp
      (by rw [hin]; exact hres) (by rw [hout]; exact hres)
  have hh : int_of_unsigned p = (setup_flags k arg).hooknum := by
    rw [setup_flags_hooknum, hp]
    apply int_of_unsigned_small
    have : (p : Int) ≤ NF_IP_NUMHOOKS - 1 := by rw [← hp]; exact hv.2
    simp only [NF_IP_NUMHOOKS] at this
    omega
  have hdp : (setup_flags k arg).dport = d := by rw [setup_flags_eq]; exact hd
  have hm : filter_match (setup_flags k arg) skb in_ out (int_of_unsigned p) =
      decide (d = t.dest) := by
    rw [hh, filter_match_dport_only _ skb in_ out hfl, ht, hdp]
  have hpass := pass_single fuel s1 skb in_ out (int_of_unsigned p) file _ hl hn hf hfuel
  rw [hm] at hpass
  rw [nf_cb_untracked fuel s1 p skb in_ out hun, hpass]
  constructor
  · intro heq
    refine ⟨skb_queue_tail s1 file skb, ?_, skb_queue_tail_self s1 file skb, ?_⟩
    · simp [heq]
    · intro q hq
      exact skb_queue_tail_other s1 file q skb hq
  · intro hne
    have : ¬ d = t.dest := fun h => hne h.symm
    simp [this]

/-- Witness for C3: the filter (point 4, destination port 80) installed by the
only subscriber; the packet to port 80 is delivered, the one to port 443 is
passed through. -/
theorem dport_filter_end_to_end_witness :
    nh_ioctl good_kernel init 0 (nh_req.NH_SET_FILTER dport80) =
      Outcome.ok (0, dport80_state) ∧
    (∃ s2, nf_cb 2 dport80_state 4 fresh_pkt none none = Outcome.ok (NF_STOLEN, s2) ∧
      (s2.privs 0).skb_queue = (dport80_state.privs 0).skb_queue ++ [fresh_pkt] ∧
      ∀ q, q ≠ 0 → s2.privs q = dport80_state.privs q) ∧
    nf_cb 2 dport80_state 4 pkt443 none none = Outcome.ok (NF_ACCEPT, dport80_state) :=
  ⟨rfl,
    (dport_filter_end_to_end good_kernel init dport80_state 0 dport80 4 80 rfl rfl rfl
      (by decide) rfl rfl rfl rfl rfl rfl rfl rfl rfl fresh_pkt none none
      { source := 1000, dest := 80 } rfl (by decide) 2 (by decide)).1 rfl,
    (dport_filter_end_to_end good_kernel init dport80_state 0 dport80 4 80 rfl rfl rfl
      (by decide) rfl rfl rfl rfl rfl rfl rfl rfl rfl pkt443 none none
      { source := 1000, dest := 443 } rfl (by decide) 2 (by decide)).2 (by decide)⟩

/-! ## Registration order (C1) -/

theorem fwd_append (s : State) (l m : List Nat) (a b : list_ptr)
    (h : fwd s a (l ++ m) b) : ∃ c, fwd s a l c ∧ fwd s c m b := by
  induction l generalizing a with
  | nil => exact ⟨a, rfl, h⟩
  | cons e rest ih =>
    obtain ⟨h1, h2⟩ := h
    obtain ⟨c, h3, h4⟩ := ih _ h2
    exact ⟨c, ⟨h1, h3⟩, h4⟩

theorem sub_match_live (s : State) (skb : sk_buff) (in_ out : Option Nat) (hooknum : Int)
    (e : Nat) (h : sub_match s skb in_ out hooknum e = true) :
    ∃ f, (s.privs e).filter = Ptr.live f := by
  unfold sub_match at h
  cases hf : (s.privs e).filter with
  | null => simp [hf] at h
  | freed => simp [hf] at h
  | live f => exact ⟨f, rfl⟩

/-- C1, refuted as stated: subscriber 0 (A) installs a filter, then subscriber 1
(B) installs one; the packet matches both filters, yet `pass` returns B, and
`nf_cb` queues the packet to B and not to A. -/
theorem first_registered_not_selected :
    nh_ioctl good_kernel init 0 (nh_req.NH_SET_FILTER any_filter) =
      Outcome.ok (0, installed_A) ∧
    nh_ioctl good_kernel installed_A 1 (nh_req.NH_SET_FILTER any_filter) =
      Outcome.ok (0, installed_AB) ∧
    (installed_AB.privs 0).filter = Ptr.live any_filter ∧
    (installed_AB.privs 1).filter = Ptr.live any_filter ∧
    filter_match any_filter fresh_pkt none none (int_of_unsigned 0) = true ∧
    fresh_pkt.id ∉ installed_AB.current_skbs ∧
    pass 3 installed_AB fresh_pkt none none (int_of_unsigned 0) = Outcome.ok (some 1) ∧
    pass 3 installed_AB fresh_pkt none none (int_of_unsigned 0) ≠ Outcome.ok (some 0) ∧
    nf_cb 3 installed_AB 0 fresh_pkt none none =
      Outcome.ok (NF_STOLEN, skb_queue_tail installed_AB 1 fresh_pkt) ∧
    ((skb_queue_tail installed_AB 1 fresh_pkt).privs 1).skb_queue = [fresh_pkt] ∧
    ((skb_queue_tail installed_AB 1 fresh_pkt).privs 0).skb_queue = [] :=
  ⟨rfl, rfl, by decide, by decide, by decide, by decide, by decide, by decide, rfl,
    by decide, by decide⟩

/-- C1, amended: the registry is searched newest first.  A successful
`NH_SET_FILTER` links the subscriber first in `nh_privs`, ahead of the
subscriber that was first before, and changes no other subscriber's `next`
pointer or data; so a subscriber that installed later stands ahead of one that
installed earlier.  In every state in which B stands ahead of A in the list
(`l1` being the subscribers ahead of B), for every untracked packet, hook point
and interface pair that fully match B's filter (in particular those that match
both filters), `pass` and `nf_cb` (with fuel for one test per subscriber up to
B) select the first subscriber in list order whose filter matches: B itself
when no subscriber ahead of it matches, otherwise one ahead of it, never A.
The packet is appended to that subscriber's queue and A's data, its queue
included, is unchanged. -/
theorem newest_match_selected :
    (∀ (k : Kernel) (s s1 : State) (file : Nat) (arg : nh_filter),
      nh_ioctl k s file (nh_req.NH_SET_FILTER arg) = Outcome.ok (0, s1) →
      s1.nh_privs.next = list_ptr.node file ∧
      (s1.privs file).list.next = s.nh_privs.next ∧
      (s1.privs file).filter = Ptr.live (setup_flags k arg) ∧
      ∀ q, q ≠ file → payload_eq (s1.privs q) (s.privs q) ∧
        (s1.privs q).list.next = (s.privs q).list.next) ∧
    (∀ (s : State) (l1 l2 : List Nat) (A B : Nat) (x : list_ptr) (fuel hooknum : Nat)
      (skb : sk_buff) (in_ out : Option Nat),
      fwd s s.nh_privs.next (l1 ++ B :: l2 ++ [A]) x →
      A ∉ l1 → A ≠ B → filters_live s l1 →
      sub_match s skb in_ out (int_of_unsigned hooknum) B = true →
      skb.id ∉ s.current_skbs → l1.length + 1 ≤ fuel →
      ∃ C, first_match s skb in_ out (int_of_unsigned hooknum) (l1 ++ [B]) = some C ∧
        C ∈ l1 ++ [B] ∧ C ≠ A ∧
        (first_match s skb in_ out (int_of_unsigned hooknum) l1 = none → C = B) ∧
        pass fuel s skb in_ out (int_of_unsigned hooknum) = Outcome.ok (some C) ∧
        nf_cb fuel s hooknum skb in_ out =
          Outcome.ok (NF_STOLEN, skb_queue_tail s C skb) ∧
        ((skb_queue_tail s C skb).privs C).skb_queue = (s.privs C).skb_queue ++ [skb] ∧
        (skb_queue_tail s C skb).privs A = s.privs A) := by
  constructor
  · intro k s s1 file arg h
    obtain ⟨_, h1, h2, h3, _, _, h4, _⟩ := set_filter_ok k s s1 file arg h
    exact ⟨h1, by rw [h2], h3, h4⟩
  · intro s l1 l2 A B x fuel hooknum skb in_ out hfwd hA hAB hlive hmB hun hfuel
    have hsplit : l1 ++ B :: l2 ++ [A] = (l1 ++ [B]) ++ (l2 ++ [A]) := by simp
    rw [hsplit] at hfwd
    obtain ⟨c, hpre, _⟩ := fwd_append s (l1 ++ [B]) (l2 ++ [A]) _ x hfwd
    have hlive2 : filters_live s (l1 ++ [B]) := by
      intro e he
      rcases List.mem_append.mp he with h | h
      · exact hlive e h
      · have : e = B := by simpa using h
        rw [this]
        exact sub_match_live s skb in_ out _ B hmB
    have hsome : ∃ C, first_match s skb in_ out (int_of_unsigned hooknum) (l1 ++ [B])
        = some C := by
      cases hc : first_match s skb in_ out (int_of_unsigned hooknum) (l1 ++ [B]) with
      | some C => exact ⟨C, rfl⟩
      | none =>
        have := first_match_none s skb in_ out _ (l1 ++ [B]) hc B (by simp)
        rw [hmB] at this
        cases this
    obtain ⟨C, hC⟩ := hsome
    obtain ⟨_, l0, l0', hl, _⟩ := first_match_some s skb in_ out _ (l1 ++ [B]) C hC
    have hmem : C ∈ l1 ++ [B] := by
      rw [hl]
      simp
    have hCA : C ≠ A := by
      intro h
      rw [h] at hmem
      rcases List.mem_append.mp hmem with h1 | h1
      · exact hA h1
      · exact hAB (by simpa using h1)
    have hp : pass fuel s skb in_ out (int_of_unsigned hooknum) = Outcome.ok (some C) :=
      pass_loop_first s skb in_ out _ (l1 ++ [B]) _ c C fuel hpre hlive2 hC (by simpa using hfuel)
    refine ⟨C, hC, hmem, hCA, ?_, hp, ?_, skb_queue_tail_self s C skb,
      skb_queue_tail_other s C A skb (fun h => hCA h.symm)⟩
    · intro hnone
      unfold first_match at hC hnone
      rw [List.find?_append, hnone] at hC
      simp only [Option.none_or, List.find?, hmB, Option.some.injEq] at hC
      exact hC.symm
    · rw [nf_cb_untracked fuel s hooknum skb in_ out hun, hp]

/-- Witness for C1 (amended): subscribers 0, 1 and 2 install their filters in
this order; the packet to port 80 matches the filters of 0 and 1 but not the one
of 2, and is delivered to subscriber 1. -/
theorem newest_match_selected_witness :
    (installed_A.nh_privs.next = list_ptr.node 0 ∧
      (installed_A.privs 0).list.next = init.nh_privs.next ∧
      (installed_A.privs 0).filter = Ptr.live (setup_flags good_kernel any_filter) ∧
      ∀ q, q ≠ 0 → payload_eq (installed_A.privs q) (init.privs q) ∧
        (installed_A.privs q).list.next = (init.privs q).list.next) ∧
    (installed_AB.nh_privs.next = list_ptr.node 1 ∧
      (installed_AB.privs 1).list.next = installed_A.nh_privs.next ∧
      (installed_AB.privs 1).filter = Ptr.live (setup_flags good_kernel any_filter) ∧
      ∀ q, q ≠ 1 → payload_eq (installed_AB.privs q) (installed_A.privs q) ∧
        (installed_AB.privs q).list.next = (installed_A.privs q).list.next) ∧
    (∃ C, first_match installed_ABC fresh_pkt none none (int_of_unsigned 0) ([2] ++ [1])
        = some C ∧
      C ∈ [2] ++ [1] ∧ C ≠ 0 ∧
      (first_match installed_ABC fresh_pkt none none (int_of_unsigned 0) [2] = none →
        C = 1) ∧
      pass 2 installed_ABC fresh_pkt none none (int_of_unsigned 0) = Outcome.ok (some C) ∧
      nf_cb 2 installed_ABC 0 fresh_pkt none none =
        Outcome.ok (NF_STOLEN, skb_queue_tail installed_ABC C fresh_pkt) ∧
      ((skb_queue_tail installed_ABC C fresh_pkt).privs C).skb_queue =
        (installed_ABC.privs C).skb_queue ++ [fresh_pkt] ∧
      (skb_queue_tail installed_ABC C fresh_pkt).privs 0 = installed_ABC.privs 0) ∧
    pass 2 installed_ABC fresh_pkt none none (int_of_unsigned 0) = Outcome.ok (some 1) :=
  ⟨newest_match_selected.1 good_kernel init installed_A 0 any_filter rfl,
    newest_match_selected.1 good_kernel installed_A installed_AB 1 any_filter rfl,
    newest_match_selected.2 installed_ABC [2] [] 0 1 list_ptr.head 2 0 fresh_pkt none none
      ⟨rfl, rfl, rfl, rfl⟩ (by decide) (by decide)
      (fun e he => by
        have h2 : e = 2 := by simpa using he
        rw [h2]
        exact ⟨setup_flags good_kernel dport443, rfl⟩)
      (by decide) (by decide) (by decide),
    by decide⟩

/-! ## Unresolved interfaces (C8) -/

theorem ite_flag_testBit (c : Prop) [Decidable c] (j i : Nat) :
    (if c then (1 <<< j : Nat) else 0).testBit i = (decide c && decide (j = i)) := by
  by_cases h : c
  · simp [h, Nat.one_shiftLeft, Nat.testBit_two_pow]
  · simp [h]

theorem setup_flags_testBit (k : Kernel) (f : nh_filter) (i : Nat) :
    (setup_flags k f).flags.testBit i =
      (f.flags.testBit i ||
        ((k.dev_get_by_name f.in_dev).isSome && decide (2 = i)) ||
        ((k.dev_get_by_name f.out_dev).isSome && decide (1 = i)) ||
        (decide (f.saddr ≠ 0) && decide (3 = i)) ||
        (decide (f.daddr ≠ 0) && decide (4 = i)) ||
        (decide (f.dport ≠ 0) && decide (6 = i)) ||
        (decide (f.sport ≠ 0) && decide (5 = i)) ||
        (decide (f.proto ≠ 0) && decide (0 = i))) := by
  rw [setup_flags_eq]
  simp only [setup_flags_word, CHECK_IN, CHECK_OUT, CHECK_SADDR, CHECK_DADDR, CHECK_DPORT,
    CHECK_SPORT, CHECK_PROTO, Nat.testBit_or, ite_flag_testBit]
  simp

theorem setup_filter_succeeds (k : Kernel) (s : State) (file : Nat) (f : nh_filter)
    (hf : (s.privs file).filter = Ptr.live f)
    (hv : 0 ≤ f.hooknum ∧ f.hooknum ≤ NF_IP_NUMHOOKS - 1)
    (halloc : k.kzalloc_hook = true)
    (hreg : s.cb_in_use f.hooknum.toNat ≠ none ∨ 0 ≤ k.nf_register_hook) :
    ∃ s1, setup_filter k s file = Outcome.ok (0, s1) ∧
      (s1.privs file).filter = Ptr.live (setup_flags k f) := by
  unfold setup_filter
  rw [hf]
  have h1 : ¬ (f.hooknum < 0 ∨ f.hooknum > NF_IP_NUMHOOKS - 1) := by omega
  simp only [h1, if_false, halloc, Bool.true_eq_false, set_priv_cb_in_use,
    setup_flags_hooknum]
  cases hc : s.cb_in_use f.hooknum.toNat with
  | some h => exact ⟨_, rfl, by simp⟩
  | none =>
    have h2 : ¬ k.nf_register_hook < 0 := by
      rcases hreg with h | h
      · exact absurd hc h
      · omega
    simp only [h2, if_false]
    exact ⟨_, rfl, by simp⟩

/-- C8, refuted as stated: the descriptors carry user flags `CHECK_IN`
(respectively `CHECK_OUT`) and an interface name that does not resolve; the
installation succeeds, and the installed filter matches a packet with no input
(output) interface but not the same packet arriving on interface 1, so the
result of `pass` does depend on the interface.  Also, with a valid point and
unresolved names, `setup_filter` returns `-ENOMEM` when the hook allocation
fails. -/
theorem unresolved_iface_still_checked :
    setup_filter nomem_kernel dport80_pending 0 = Outcome.ok (-ENOMEM, dport80_pending) ∧
    good_kernel.dev_get_by_name in_flagged.in_dev = none ∧
    nh_ioctl good_kernel init 0 (nh_req.NH_SET_FILTER in_flagged) =
      Outcome.ok (0, in_flagged_state) ∧
    pass 2 in_flagged_state fresh_pkt none none 0 = Outcome.ok (some 0) ∧
    pass 2 in_flagged_state fresh_pkt (some 1) none 0 = Outcome.ok none ∧
    good_kernel.dev_get_by_name out_flagged.out_dev = none ∧
    nh_ioctl good_kernel init 0 (nh_req.NH_SET_FILTER out_flagged) =
      Outcome.ok (0, out_flagged_state) ∧
    pass 2 out_flagged_state fresh_pkt none none 0 = Outcome.ok (some 0) ∧
    pass 2 out_flagged_state fresh_pkt none (some 1) 0 = Outcome.ok none :=
  ⟨rfl, rfl, rfl, by decide, by decide, rfl, rfl, by decide, by decide⟩

/-- C8, amended: given a valid hook point, a successful hook allocation and a
hook that is already active or registers without error, `setup_filter` succeeds
whether or not the interface names resolve.  If the input (respectively output)
interface name does not resolve and the user-supplied flags have `CHECK_IN`
(`CHECK_OUT`) clear, the installed filter has that bit clear and its match
result is the same whatever the packet's input (output) interface is. -/
theorem unresolved_iface_disabled (k : Kernel) (s : State) (file : Nat) (f : nh_filter)
    (hf : (s.privs file).filter = Ptr.live f)
    (hv : 0 ≤ f.hooknum ∧ f.hooknum ≤ NF_IP_NUMHOOKS - 1)
    (halloc : k.kzalloc_hook = true)
    (hreg : s.cb_in_use f.hooknum.toNat ≠ none ∨ 0 ≤ k.nf_register_hook) :
    ∃ s1, setup_filter k s file = Outcome.ok (0, s1) ∧
      (s1.privs file).filter = Ptr.live (setup_flags k f) ∧
      (k.dev_get_by_name f.in_dev = none → f.flags &&& CHECK_IN = 0 →
        (setup_flags k f).flags &&& CHECK_IN = 0 ∧
        ∀ (skb : sk_buff) (in_ in2 out : Option Nat) (hooknum : Int),
          filter_match (setup_flags k f) skb in_ out hooknum =
            filter_match (setup_flags k f) skb in2 out hooknum) ∧
      (k.dev_get_by_name f.out_dev = none → f.flags &&& CHECK_OUT = 0 →
        (setup_flags k f).flags &&& CHECK_OUT = 0 ∧
        ∀ (skb : sk_buff) (in_ out out2 : Option Nat) (hooknum : Int),
          filter_match (setup_flags k f) skb in_ out hooknum =
            filter_match (setup_flags k f) skb in_ out2 hooknum) := by
  obtain ⟨s1, h1, h2⟩ := setup_filter_succeeds k s file f hf hv halloc hreg
  refine ⟨s1, h1, h2, ?_, ?_⟩
  · intro hres hbit
    have hb : (setup_flags k f).flags.testBit 2 = false := by
      rw [setup_flags_testBit]
      simp [hres, (flag_clear f.flags 2).mp hbit]
    refine ⟨(flag_clear _ 2).mpr hb, ?_⟩
    intro skb in_ in2 out hooknum
    simp [filter_match_eq, hb]
  · intro hres hbit
    have hb : (setup_flags k f).flags.testBit 1 = false := by
      rw [setup_flags_testBit]
      simp [hres, (flag_clear f.flags 1).mp hbit]
    refine ⟨(flag_clear _ 1).mpr hb, ?_⟩
    intro skb in_ out out2 hooknum
    simp [filter_match_eq, hb]

/-- Witness for C8 (amended): the descriptor `dport80`, whose interface names do
not resolve and whose user flags are zero. -/
theorem unresolved_iface_disabled_witness :
    (dport80_pending.privs 0).filter = Ptr.live dport80 ∧
    good_kernel.dev_get_by_name dport80.in_dev = none ∧
    dport80.flags &&& CHECK_IN = 0 ∧
    good_kernel.dev_get_by_name dport80.out_dev = none ∧
    dport80.flags &&& CHECK_OUT = 0 ∧
    ∃ s1, setup_filter good_kernel dport80_pending 0 = Outcome.ok (0, s1) ∧
      (s1.privs 0).filter = Ptr.live (setup_flags good_kernel dport80) ∧
      ((setup_flags good_kernel dport80).flags &&& CHECK_IN = 0 ∧
        ∀ (skb : sk_buff) (in_ in2 out : Option Nat) (hooknum : Int),
          filter_match (setup_flags good_kernel dport80) skb in_ out hooknum =
            filter_match (setup_flags good_kernel dport80) skb in2 out hooknum) ∧
      ((setup_flags good_kernel dport80).flags &&& CHECK_OUT = 0 ∧
        ∀ (skb : sk_buff) (in_ out out2 : Option Nat) (hooknum : Int),
          filter_match (setup_flags good_kernel dport80) skb in_ out hooknum =
            filter_match (setup_flags good_kernel dport80) skb in_ out2 hooknum) :=
  ⟨rfl, rfl, by decide, rfl, by decide,
    (unresolved_iface_disabled good_kernel dport80_pending 0 dport80 rfl
      ⟨by decide, by decide⟩ rfl (Or.inr (by decide))).imp
      (fun _ h => ⟨h.1, h.2.1, h.2.2.1 rfl (by decide), h.2.2.2 rfl (by decide)⟩)⟩

/-! ## Short-buffer policy (C7) -/

/-- C7, refuted as stated: subscriber 0 has a filter and one queued packet of
60 + 14 bytes; a read of 50 bytes issued while a signal is pending returns
`-ERESTARTSYS`, not `-EINVAL`, and the packet stays at the head of the queue. -/
theorem short_read_with_signal_keeps_packet :
    (queued_state.privs 0).filter = Ptr.live any_filter ∧
    (queued_state.privs 0).skb_queue = [fresh_pkt] ∧
    (50 : Nat) ≠ 0 ∧ 50 < fresh_pkt.len + ETH_HLEN ∧
    (nh_read signal_kernel queued_state 0 50).1 = ReadResult.ret (-ERESTARTSYS) 0 ∧
    (nh_read signal_kernel queued_state 0 50).1 ≠ ReadResult.ret (-EINVAL) 0 ∧
    ((nh_read signal_kernel queued_state 0 50).2.privs 0).skb_queue = [fresh_pkt] :=
  ⟨by decide, by decide, by decide, by decide, by decide, by decide, by decide⟩

/-- C7, amended: for a subscriber with a filter attached and a non-empty queue,
a read issued while no signal is pending, with a buffer size that is non-zero
and smaller than the head packet's length plus `ETH_HLEN`, returns `-EINVAL`,
copies nothing, and removes exactly the head packet: the queue becomes the
former tail, in order, and nothing else in the state changes (the registry
pointers included). -/
theorem short_read_discards_head (k : Kernel) (s : State) (file count : Nat)
    (skb : sk_buff) (rest : List sk_buff)
    (hfilter : (s.privs file).filter ≠ Ptr.null)
    (hq : (s.privs file).skb_queue = skb :: rest)
    (hc0 : count ≠ 0) (hsmall : count < skb.len + ETH_HLEN)
    (hsig : k.signal_pending = false) :
    (nh_read k s file count).1 = ReadResult.ret (-EINVAL) 0 ∧
    ((nh_read k s file count).2.privs file).skb_queue = rest ∧
    ((nh_read k s file count).2.privs file).filter = (s.privs file).filter ∧
    ((nh_read k s file count).2.privs file).writer = (s.privs file).writer ∧
    ((nh_read k s file count).2.privs file).list = (s.privs file).list ∧
    (∀ q, q ≠ file → (nh_read k s file count).2.privs q = s.privs q) ∧
    (nh_read k s file count).2.nh_privs = s.nh_privs ∧
    (nh_read k s file count).2.current_skbs = s.current_skbs ∧
    (nh_read k s file count).2.cb_in_use = s.cb_in_use := by
  have hr : nh_read k s file count =
      (ReadResult.ret (-EINVAL) 0,
        set_priv s file { s.privs file with skb_queue := rest }) := by
    unfold nh_read
    rw [hq]
    cases hp : (s.privs file).filter with
    | null => exact absurd hp hfilter
    | live f => simp [hc0, hsig, hsmall]
    | freed => simp [hc0, hsig, hsmall]
  rw [hr]
  refine ⟨rfl, by simp, by simp, by simp, by simp, ?_, rfl, rfl, rfl⟩
  intro q hq2
  simp [hq2]

/-- Witness for C7 (amended): the same state and buffer size, no signal. -/
theorem short_read_discards_head_witness :
    (nh_read good_kernel queued_state 0 50).1 = ReadResult.ret (-EINVAL) 0 ∧
    ((nh_read good_kernel queued_state 0 50).2.privs 0).skb_queue = [] ∧
    ((nh_read good_kernel queued_state 0 50).2.privs 0).filter =
      (queued_state.privs 0).filter ∧
    ((nh_read good_kernel queued_state 0 50).2.privs 0).writer =
      (queued_state.privs 0).writer ∧
    ((nh_read good_kernel queued_state 0 50).2.privs 0).list =
      (queued_state.privs 0).list ∧
    (∀ q, q ≠ 0 → (nh_read good_kernel queued_state 0 50).2.privs q =
      queued_state.privs q) ∧
    (nh_read good_kernel queued_state 0 50).2.nh_privs = queued_state.nh_privs ∧
    (nh_read good_kernel queued_state 0 50).2.current_skbs = queued_state.current_skbs ∧
    (nh_read good_kernel queued_state 0 50).2.cb_in_use = queued_state.cb_in_use :=
  short_read_discards_head good_kernel queued_state 0 50 fresh_pkt [] (by decide)
    (by decide) (by decide) (by decide) rfl

/-! ## Loop prevention across write (C10) -/

theorem is_hooked_head (l : List Nat) (skb : Nat) : is_hooked (skb :: l) skb = some 0 := by
  simp [is_hooked]

/-- C10: for a subscriber whose writer is attached, a write of `count` bytes
that succeeds (returns a non-negative value) returns `count`.  In mode
`TO_ROUTING_STACK` it adds exactly one entry to `current_skbs`, for the address
of the freshly allocated packet, and changes nothing else; the next `nf_cb` for
that address (with any fuel) returns `NF_ACCEPT`, queues nothing and leaves `current_skbs`
exactly as it was before the write (same entries, same length).  In modes
`TO_INTERFACE` and `TO_INTERFACE_QUEUE` the write leaves the state, and so the
tracker, unchanged. -/
theorem write_routing_round_trip (k : Kernel) (s s1 : State) (file count : Nat)
    (w : nh_writer) (r : Int)
    (hw : (s.privs file).writer = Ptr.live w)
    (hwr : nh_write k s file count = Outcome.ok (r, s1)) (hr : 0 ≤ r) :
    r = (count : Int) ∧
    (w.mode = nh_mode.TO_ROUTING_STACK →
      ∃ skb, k.dev_alloc_skb = some skb ∧
        s1.current_skbs = skb :: s.current_skbs ∧
        s1.current_skbs.length = s.current_skbs.length + 1 ∧
        s1.privs = s.privs ∧ s1.nh_privs = s.nh_privs ∧
        ∀ (pkt : sk_buff) (fuel hooknum : Nat) (in_ out : Option Nat), pkt.id = skb →
          ∃ s2, nf_cb fuel s1 hooknum pkt in_ out = Outcome.ok (NF_ACCEPT, s2) ∧
            s2.current_skbs = s.current_skbs ∧
            s2.current_skbs.length = s.current_skbs.length ∧
            s2.privs = s.privs ∧ s2.nh_privs = s.nh_privs) ∧
    (w.mode = nh_mode.TO_INTERFACE ∨ w.mode = nh_mode.TO_INTERFACE_QUEUE →
      s1 = s ∧ s1.current_skbs = s.current_skbs) := by
  unfold nh_write at hwr
  rw [hw] at hwr
  simp only at hwr
  split at hwr
  · cases hwr
    simp [ENOMEM] at hr
  · rename_i skb ha
    split_ifs at hwr with hcopy hm hk
    · cases hwr
      simp [EFAULT] at hr
    · cases hwr
      simp [ENOMEM] at hr
    · split at hwr
      · cases hwr
      cases hwr
      refine ⟨rfl, ?_, ?_⟩
      · intro _
        refine ⟨skb, ha, rfl, by simp, rfl, rfl, ?_⟩
        intro pkt fuel hooknum in_ out hid
        refine ⟨_, nf_cb_tracked_eq fuel _ hooknum pkt in_ out 0 ?_, ?_, ?_, rfl, rfl⟩
        · rw [hid]
          exact is_hooked_head s.current_skbs skb
        · simp
        · simp
      · intro h
        rcases h with h | h <;> rw [hm] at h <;> cases h
    · split at hwr
      · cases hwr
      · cases hwr
        exact ⟨rfl, fun h => absurd h hm, fun _ => ⟨rfl, rfl⟩⟩

/-- Witness for C10: subscriber 0 writes 100 bytes in mode `TO_ROUTING_STACK`
while the tracker already holds 5, 7, 9, 7 and the fresh packet gets address 7;
subscriber 1 writes 100 bytes in mode `TO_INTERFACE`. -/
theorem write_routing_round_trip_witness :
    ((100 : Int) = ((100 : Nat) : Int) ∧
      ∃ skb, good_kernel.dev_alloc_skb = some skb ∧
        written_state.current_skbs = skb :: writer_state.current_skbs ∧
        written_state.current_skbs.length = writer_state.current_skbs.length + 1 ∧
        written_state.privs = writer_state.privs ∧
        written_state.nh_privs = writer_state.nh_privs ∧
        ∀ (pkt : sk_buff) (fuel hooknum : Nat) (in_ out : Option Nat), pkt.id = skb →
          ∃ s2, nf_cb fuel written_state hooknum pkt in_ out = Outcome.ok (NF_ACCEPT, s2) ∧
            s2.current_skbs = writer_state.current_skbs ∧
            s2.current_skbs.length = writer_state.current_skbs.length ∧
            s2.privs = writer_state.privs ∧ s2.nh_privs = writer_state.nh_privs) ∧
    (writer_state = writer_state ∧
      writer_state.current_skbs = writer_state.current_skbs) :=
  ⟨⟨(write_routing_round_trip good_kernel writer_state written_state 0 100
        routing_writer 100 rfl rfl (by decide)).1,
      (write_routing_round_trip good_kernel writer_state written_state 0 100
        routing_writer 100 rfl rfl (by decide)).2.1 rfl⟩,
    (write_routing_round_trip good_kernel writer_state writer_state 1 100
      iface_writer 100 rfl rfl (by decide)).2.2 (Or.inl rfl)⟩

/-! ## The filter pointer after a rejected installation or a removal (C5, C6) -/

theorem nh_read_not_ebadf (k : Kernel) (s : State) (file count : Nat)
    (hc : count ≠ 0) (hf : (s.privs file).filter ≠ Ptr.null) :
    (nh_read k s file count).1 ≠ ReadResult.ret (-EBADF) 0 := by
  unfold nh_read
  simp only [hc, if_false]
  cases hp : (s.privs file).filter with
  | null => exact absurd hp hf
  | live f =>
    split <;> split_ifs <;> simp [EBADF, ERESTARTSYS, EINVAL, EFAULT]
    omega
  | freed =>
    split <;> split_ifs <;> simp [EBADF, ERESTARTSYS, EINVAL, EFAULT]
    omega

/-- C5, the behaviour of the code: for every descriptor whose hook point is
negative or above `NF_IP_NUMHOOKS - 1` (allocation and copy of the descriptor
succeeding), `NH_SET_FILTER` returns `-EINVAL` and leaves the registry pointers
and the hook table unchanged, but `p->filter` is left pointing to the released
descriptor: it is not NULL, so no later non-empty read returns `-EBADF`, and a
later `NH_RM_FILTER` runs `list_del` and frees the descriptor a second time. -/
theorem invalid_point_leaves_dangling_filter (k : Kernel) (s : State) (file : Nat)
    (arg : nh_filter) (halloc : k.kzalloc_filter = true) (hcopy : k.copy_from_user = true)
    (hbad : arg.hooknum < 0 ∨ arg.hooknum > NF_IP_NUMHOOKS - 1) :
    ∃ s1, nh_ioctl k s file (nh_req.NH_SET_FILTER arg) = Outcome.ok (-EINVAL, s1) ∧
      s1.nh_privs = s.nh_privs ∧ (∀ q, (s1.privs q).list = (s.privs q).list) ∧
      s1.cb_in_use = s.cb_in_use ∧
      s1.current_skbs = s.current_skbs ∧
      (s1.privs file).filter = Ptr.freed ∧
      (s1.privs file).filter ≠ Ptr.null ∧
      (∀ (k2 : Kernel) (count : Nat), count ≠ 0 →
        (nh_read k2 s1 file count).1 ≠ ReadResult.ret (-EBADF) 0) ∧
      (∀ k2 : Kernel, nh_ioctl k2 s1 file nh_req.NH_RM_FILTER = Outcome.fault) := by
  have hne : ¬ (-EINVAL = 0) := by decide
  refine ⟨set_priv (set_priv s file { s.privs file with filter := Ptr.live arg }) file
    { (set_priv s file { s.privs file with filter := Ptr.live arg }).privs file with
      filter := Ptr.freed }, ?_, rfl, ?_, rfl, rfl, by simp, by simp, ?_, ?_⟩
  · unfold nh_ioctl setup_filter
    simp [halloc, hcopy, hbad, hne]
  · intro q
    simp only [set_priv_privs]
    split_ifs with h
    · rw [h]
    · rfl
  · intro k2 count hc
    exact nh_read_not_ebadf k2 _ file count hc (by simp)
  · intro k2
    simp [nh_ioctl]

/-- Witness for C5: a freshly opened subscriber asks for hook point 5. -/
theorem invalid_point_leaves_dangling_filter_witness :
    nh_ioctl good_kernel init 0 (nh_req.NH_SET_FILTER bad_point) =
      Outcome.ok (-EINVAL, rejected_state) ∧
    (rejected_state.privs 0).filter = Ptr.freed ∧
    (nh_read good_kernel rejected_state 0 100).1 = ReadResult.blocked ∧
    (nh_read signal_kernel rejected_state 0 100).1 = ReadResult.ret (-ERESTARTSYS) 0 ∧
    nh_ioctl good_kernel rejected_state 0 nh_req.NH_RM_FILTER = Outcome.fault ∧
    ∃ s1, nh_ioctl good_kernel init 0 (nh_req.NH_SET_FILTER bad_point) =
        Outcome.ok (-EINVAL, s1) ∧
      s1.nh_privs = init.nh_privs ∧ (∀ q, (s1.privs q).list = (init.privs q).list) ∧
      s1.cb_in_use = init.cb_in_use ∧
      s1.current_skbs = init.current_skbs ∧
      (s1.privs 0).filter = Ptr.freed ∧
      (s1.privs 0).filter ≠ Ptr.null ∧
      (∀ (k2 : Kernel) (count : Nat), count ≠ 0 →
        (nh_read k2 s1 0 count).1 ≠ ReadResult.ret (-EBADF) 0) ∧
      (∀ k2 : Kernel, nh_ioctl k2 s1 0 nh_req.NH_RM_FILTER = Outcome.fault) :=
  ⟨rfl, by decide, by decide, by decide, rfl,
    invalid_point_leaves_dangling_filter good_kernel init 0 bad_point rfl rfl
      (Or.inr (by decide))⟩

/-- C6, the behaviour of the code: `NH_RM_FILTER` on a subscriber with a valid
filter that is linked in a sound registry returns 0 and unlinks the subscriber
(the registry stays sound and no longer holds it, so `pass` never returns it),
but `p->filter` is left pointing to the released filter: it is not NULL, so no
later non-empty read returns `-EBADF`, and a second `NH_RM_FILTER` runs
`list_del` on the poisoned node and frees the filter a second time.  On a
subscriber whose filter pointer is NULL the request returns 0 and changes
nothing. -/
theorem rm_filter_leaves_dangling_filter (k : Kernel) (s : State) (file : Nat) :
    ((∃ f, (s.privs file).filter = Ptr.live f) →
      ∀ l, is_registry s l → file ∈ l →
      ∃ s1, nh_ioctl k s file nh_req.NH_RM_FILTER = Outcome.ok (0, s1) ∧
        is_registry s1 (l.erase file) ∧ file ∉ l.erase file ∧
        (∀ (fuel : Nat) (skb : sk_buff) (in_ out : Option Nat) (hooknum : Int),
          pass fuel s1 skb in_ out hooknum ≠ Outcome.ok (some file)) ∧
        (s1.privs file).list =
          { next := list_ptr.poison1, prev := list_ptr.poison2 } ∧
        (s1.privs file).filter = Ptr.freed ∧
        (s1.privs file).filter ≠ Ptr.null ∧
        (s1.privs file).skb_queue = (s.privs file).skb_queue ∧
        (∀ (k2 : Kernel) (count : Nat), count ≠ 0 →
          (nh_read k2 s1 file count).1 ≠ ReadResult.ret (-EBADF) 0) ∧
        (∀ k2 : Kernel, nh_ioctl k2 s1 file nh_req.NH_RM_FILTER = Outcome.fault)) ∧
    ((s.privs file).filter = Ptr.null →
      nh_ioctl k s file nh_req.NH_RM_FILTER = Outcome.ok (0, s)) := by
  constructor
  · intro hf l hr hin
    obtain ⟨f, hf⟩ := hf
    obtain ⟨sd, hdel, hrd⟩ := is_registry_list_del s l file hr hin
    obtain ⟨hnx, hpv, hpay, _, _⟩ := list_del_spec s sd file hdel
    have hreg : is_registry (set_priv sd file { sd.privs file with filter := Ptr.freed })
        (l.erase file) := by
      refine is_registry_congr sd _ (l.erase file) rfl ?_ hrd
      intro q
      simp only [set_priv_privs]
      split_ifs with h
      · rw [h]
      · rfl
    have hnot : file ∉ l.erase file := List.Nodup.not_mem_erase hr.1
    refine ⟨set_priv sd file { sd.privs file with filter := Ptr.freed }, ?_, hreg, hnot, ?_,
      ?_, by simp, by simp, ?_, ?_, ?_⟩
    · simp [nh_ioctl, hf, hdel]
    · intro fuel skb in_ out hooknum h
      exact hnot (pass_loop_result_mem _ skb in_ out hooknum _ _ fuel file
        (linked_fwd _ _ _ hreg.2) h)
    · have h1 := hnx (list_ptr.node file)
      have h2 := hpv (list_ptr.node file)
      simp only [next_of, prev_of, if_true] at h1 h2
      simp only [set_priv_privs, if_true]
      cases hl : (sd.privs file).list with
      | mk n p =>
        rw [hl] at h1 h2
        simp only at h1 h2
        rw [h1, h2]
    · simp only [set_priv_privs, if_true]
      exact (hpay file).2.2
    · intro k2 count hc
      exact nh_read_not_ebadf k2 _ file count hc (by simp)
    · intro k2
      simp [nh_ioctl]
  · intro hnull
    simp [nh_ioctl, hnull]

theorem is_registry_queued_state : is_registry queued_state [0] :=
  ⟨by decide, rfl, rfl, rfl, rfl⟩

/-- Witness for C6: subscriber 0 of `queued_state` (registered, one packet
queued) removes its filter; the following read of 100 bytes delivers the queued
packet instead of failing, and a second removal faults.  Subscriber 1 has no
filter and its removal changes nothing. -/
theorem rm_filter_leaves_dangling_filter_witness :
    nh_ioctl good_kernel queued_state 0 nh_req.NH_RM_FILTER =
      Outcome.ok (0, removed_state) ∧
    removed_state.nh_privs = init.nh_privs ∧
    (removed_state.privs 0).filter = Ptr.freed ∧
    (nh_read good_kernel removed_state 0 100).1 = ReadResult.ret 74 74 ∧
    nh_ioctl good_kernel removed_state 0 nh_req.NH_RM_FILTER = Outcome.fault ∧
    (∃ s1, nh_ioctl good_kernel queued_state 0 nh_req.NH_RM_FILTER = Outcome.ok (0, s1) ∧
        is_registry s1 ([0].erase 0) ∧ 0 ∉ [0].erase 0 ∧
        (∀ (fuel : Nat) (skb : sk_buff) (in_ out : Option Nat) (hooknum : Int),
          pass fuel s1 skb in_ out hooknum ≠ Outcome.ok (some 0)) ∧
        (s1.privs 0).list =
          { next := list_ptr.poison1, prev := list_ptr.poison2 } ∧
        (s1.privs 0).filter = Ptr.freed ∧
        (s1.privs 0).filter ≠ Ptr.null ∧
        (s1.privs 0).skb_queue = (queued_state.privs 0).skb_queue ∧
        (∀ (k2 : Kernel) (count : Nat), count ≠ 0 →
          (nh_read k2 s1 0 count).1 ≠ ReadResult.ret (-EBADF) 0) ∧
        (∀ k2 : Kernel, nh_ioctl k2 s1 0 nh_req.NH_RM_FILTER = Outcome.fault)) ∧
    nh_ioctl good_kernel queued_state 1 nh_req.NH_RM_FILTER =
      Outcome.ok (0, queued_state) :=
  ⟨rfl, by decide, by decide, by decide, rfl,
    (rm_filter_leaves_dangling_filter good_kernel queued_state 0).1
      ⟨any_filter, by decide⟩ [0] is_registry_queued_state (by decide),
    (rm_filter_leaves_dangling_filter good_kernel queued_state 1).2 (by decide)⟩

end NetHook
